import Mathlib

/-!
# Transparent proxy core of gsnova (`local/proxy/transparent_unix.go`)

A shallow embedding of the Linux transparent-proxy code: the original-destination
resolver for redirected TCP connections, the ancillary-data decoder of the UDP
listener, the UDP session table and session state machine, and the reply writer.

Conventions of the embedding.

* Go values that may be `nil` are `Option`s; a Go `error` is `Option GoError`.
* A function that can fault at run time (index or slice out of range, failed type
  assertion) returns `GoResult`, whose `panic` constructor is the run-time panic.
* System calls and the upstream tunnel are outside the program.  Their outcomes are
  inputs of the embedded functions, and the calls the program issues are recorded, in
  program order, in a list of `Event`s.
* Machine integers are `Nat`/`Int`; a reduction modulo `2^w` is written where a Go
  operation is performed at width `w`.
-/

namespace Gsnova

/-! ## Go run-time model -/

/-- A Go `byte`. -/
abbrev Byte := Fin 256

/-- A Go `error` value that is not `nil`. -/
inductive GoError where
  | errno (code : Nat)
  | errorf (text : String)
  deriving DecidableEq, Repr

/-- The run-time faults the embedded code can raise. -/
inductive PanicKind where
  | indexOutOfRange
  | sliceOutOfRange
  | typeAssertion
  deriving DecidableEq, Repr

/-- Outcome of a Go call that returns `(value, error)` and may also panic. -/
inductive GoResult (α : Type) where
  | ok (v : α)
  | err (e : GoError)
  | panic (k : PanicKind)
  deriving DecidableEq, Repr

/-- Sequencing of Go statements: the first error return or panic ends the function. -/
def GoResult.bind {α β : Type} (r : GoResult α) (f : α → GoResult β) : GoResult β :=
  match r with
  | .ok v => f v
  | .err e => .err e
  | .panic k => .panic k

instance : Monad GoResult where
  pure := GoResult.ok
  bind := GoResult.bind

/-- A Go `[]byte`: the `len` visible elements, and the elements of the backing array
that lie between `len` and `cap`. -/
structure GoBytes where
  elems : List Byte
  spare : List Byte
  deriving DecidableEq, Repr

/-- Go `len(s)`. -/
def GoBytes.len (s : GoBytes) : Nat := s.elems.length

/-- Go `cap(s)`. -/
def GoBytes.cap (s : GoBytes) : Nat := s.elems.length + s.spare.length

/-- Go `s[i]`: bounds are checked against `len(s)`. -/
def GoBytes.index (s : GoBytes) (i : Nat) : GoResult Byte :=
  match s.elems[i]? with
  | some b => .ok b
  | none => .panic .indexOutOfRange

/-- Go `s[lo:hi]`, as the list of its elements: bounds are checked against `cap(s)`. -/
def GoBytes.slice (s : GoBytes) (lo hi : Nat) : GoResult (List Byte) :=
  if lo ≤ hi ∧ hi ≤ s.cap then .ok (((s.elems ++ s.spare).drop lo).take (hi - lo))
  else .panic .sliceOutOfRange

/-- Go `copy(dst, src)` as the new contents of `dst`: the first
`min(len(dst), len(src))` elements are overwritten. -/
def goCopy (dst src : List Byte) : List Byte :=
  src.take dst.length ++ dst.drop src.length

/-! ## Socket addresses -/

/-- Go `[4]byte`. -/
abbrev Addr4 := { l : List Byte // l.length = 4 }

/-- Go `[16]byte`. -/
abbrev Addr16 := { l : List Byte // l.length = 16 }

/-- The zero value of `[4]byte` after `copy(a[:], src)`. -/
def Addr4.copyFrom (src : List Byte) : Addr4 :=
  ⟨goCopy (List.replicate 4 0) src, by
    simp only [goCopy, List.length_append, List.length_take, List.length_drop,
      List.length_replicate]
    omega⟩

/-- The zero value of `[16]byte` after `copy(a[:], src)`. -/
def Addr16.copyFrom (src : List Byte) : Addr16 :=
  ⟨goCopy (List.replicate 16 0) src, by
    simp only [goCopy, List.length_append, List.length_take, List.length_drop,
      List.length_replicate]
    omega⟩

/-- The two implementations of `syscall.Sockaddr` the proxy handles:
`*syscall.SockaddrInet4` and `*syscall.SockaddrInet6`. -/
inductive Sockaddr where
  | SockaddrInet4 (Port : Int) (Addr : Addr4)
  | SockaddrInet6 (Port : Int) (ZoneId : Nat) (Addr : Addr16)
  deriving DecidableEq, Repr

/-! ## Constants -/

/-- Linux `syscall.SOL_IP`. -/
def SOL_IP : Int := 0
/-- Linux `syscall.SOL_IPV6`. -/
def SOL_IPV6 : Int := 41
/-- Linux `syscall.IP_RECVORIGDSTADDR`. -/
def IP_RECVORIGDSTADDR : Int := 20
/-- Source constant `IPV6_RECVORIGDSTADDR`. -/
def IPV6_RECVORIGDSTADDR : Int := 74

/-! ## `recvTransparentUDP` -/

/-- Go `syscall.Cmsghdr`. -/
structure Cmsghdr where
  Len : Nat
  Level : Int
  Type_ : Int
  deriving DecidableEq, Repr

/-- Go `syscall.SocketControlMessage`. -/
structure SocketControlMessage where
  Header : Cmsghdr
  Data : GoBytes
  deriving DecidableEq, Repr

/-- The error of `fmt.Errorf("Can NOT get orgin remote address")`. -/
def errNoOrigDst : GoError := .errorf "Can NOT get orgin remote address"

/-- The `for _, cmsg := range ctrlMsgs` loop of `recvTransparentUDP` together with the
final `return`; `data` is `buf[0:n]` and `laddr` the source address of the datagram. -/
def recvTransparentUDP.loop (data : List Byte) (laddr : Sockaddr) :
    List SocketControlMessage → GoResult (List Byte × Sockaddr × Sockaddr)
  | [] => .err errNoOrigDst
  | cmsg :: rest =>
    if cmsg.Header.Level = SOL_IP ∧ cmsg.Header.Type_ = IP_RECVORIGDSTADDR then do
      let b2 ← cmsg.Data.index 2
      let b3 ← cmsg.Data.index 3
      let port : Int := Int.ofNat (b2.val <<< 8 + b3.val)
      let src ← cmsg.Data.slice 4 8
      pure (data, laddr, Sockaddr.SockaddrInet4 port (Addr4.copyFrom src))
    else if cmsg.Header.Level = SOL_IPV6 ∧ cmsg.Header.Type_ = IPV6_RECVORIGDSTADDR then do
      let b2 ← cmsg.Data.index 2
      let b3 ← cmsg.Data.index 3
      let port : Int := Int.ofNat (b2.val <<< 8 + b3.val)
      let src ← cmsg.Data.slice 8 24
      pure (data, laddr, Sockaddr.SockaddrInet6 port 0 (Addr16.copyFrom src))
    else recvTransparentUDP.loop data laddr rest

/-- Model of `recvTransparentUDP`.  `recvmsg` is the outcome of `syscall.Recvmsg`
(on success the received bytes `buf[0:n]` and the sender address), `parsed` the outcome
of `syscall.ParseSocketControlMessage(oob[0:cn])`. -/
def recvTransparentUDP (recvmsg : Except GoError (List Byte × Sockaddr))
    (parsed : Except GoError (List SocketControlMessage)) :
    GoResult (List Byte × Sockaddr × Sockaddr) :=
  match recvmsg with
  | .error e => .err e
  | .ok (data, laddr) =>
    match parsed with
    | .error e => .err e
    | .ok ctrlMsgs => recvTransparentUDP.loop data laddr ctrlMsgs

/-! ## Reference decoder (specification side) -/

/-- Address family of an endpoint. -/
inductive Family where
  | inet4
  | inet6
  deriving DecidableEq, Repr

/-- The specification's endpoint: (address, port, family). -/
structure Endpoint where
  family : Family
  address : List Byte
  port : Int
  deriving DecidableEq, Repr

/-- The endpoint a socket address stands for. -/
def Sockaddr.toEndpoint : Sockaddr → Endpoint
  | .SockaddrInet4 port addr => ⟨.inet4, addr.val, port⟩
  | .SockaddrInet6 port _ addr => ⟨.inet6, addr.val, port⟩

/-- A record of level `SOL_IP` and type `IP_RECVORIGDSTADDR`. -/
def isOrigDst4 (m : SocketControlMessage) : Bool :=
  m.Header.Level = SOL_IP ∧ m.Header.Type_ = IP_RECVORIGDSTADDR

/-- A record of level `SOL_IPV6` and type `IPV6_RECVORIGDSTADDR`. -/
def isOrigDst6 (m : SocketControlMessage) : Bool :=
  m.Header.Level = SOL_IPV6 ∧ m.Header.Type_ = IPV6_RECVORIGDSTADDR

/-- An original-destination record of either family. -/
def isOrigDst (m : SocketControlMessage) : Bool := isOrigDst4 m || isOrigDst6 m

/-- The bytes `payload[lo..hi)`. -/
def payloadSlice (payload : List Byte) (lo hi : Nat) : List Byte :=
  (payload.drop lo).take (hi - lo)

/-- The reference decoder, written from the specification: take the first
original-destination record; the port is `payload[2]*256 + payload[3]`, the address is
`payload[4..8)` for IPv4 and `payload[8..24)` for IPv6; without such a record the result
is the not-found error. -/
def referenceDecode (msgs : List SocketControlMessage) : GoResult Endpoint :=
  match msgs.find? isOrigDst with
  | none => .err errNoOrigDst
  | some r =>
    let payload := r.Data.elems
    let port : Int := Int.ofNat ((payload.getD 2 0).val * 256 + (payload.getD 3 0).val)
    if isOrigDst4 r then .ok ⟨.inet4, payloadSlice payload 4 8, port⟩
    else .ok ⟨.inet6, payloadSlice payload 8 24, port⟩

/-- Payload length the layout of a record's family needs: 8 bytes for IPv4, 24 for IPv6. -/
def requiredPayload (m : SocketControlMessage) : Nat := if isOrigDst4 m then 8 else 24

/-- The first original-destination record of the list, if there is one, has a payload
that is long enough for its family. -/
def payloadLongEnough (msgs : List SocketControlMessage) : Prop :=
  ∀ r, msgs.find? isOrigDst = some r → requiredPayload r ≤ r.Data.len

instance (msgs : List SocketControlMessage) : Decidable (payloadLongEnough msgs) := by
  unfold payloadLongEnough
  cases h : msgs.find? isOrigDst with
  | none => exact isTrue (by intro r hr; cases hr)
  | some r0 =>
    by_cases h2 : requiredPayload r0 ≤ r0.Data.len
    · exact isTrue (by intro r hr; cases hr; exact h2)
    · exact isFalse (by intro hh; exact h2 (hh r0 rfl))

/-- The outcome of `recvTransparentUDP` with the decoded socket address read as an
endpoint. -/
def decodedEndpoint :
    GoResult (List Byte × Sockaddr × Sockaddr) → GoResult (List Byte × Sockaddr × Endpoint)
  | .ok (d, l, r) => .ok (d, l, r.toEndpoint)
  | .err e => .err e
  | .panic k => .panic k

/-- The outcome the reference decoder prescribes for a datagram `data` from `laddr`. -/
def ofReference (data : List Byte) (laddr : Sockaddr) :
    GoResult Endpoint → GoResult (List Byte × Sockaddr × Endpoint)
  | .ok ep => .ok (data, laddr, ep)
  | .err e => .err e
  | .panic k => .panic k

/-- Whether a call ended in a run-time panic. -/
def GoResult.isPanic {α : Type} : GoResult α → Bool
  | .panic _ => true
  | _ => false

/-- An IPv4 original-destination record carrying `sockaddr_in` for 93.184.216.34:443, as
parsed from the start of the 64-byte `oob` buffer: a 16-byte header, the 16 payload
bytes, and the 32 remaining bytes of the buffer behind the payload. -/
def sampleRecord4 : SocketControlMessage :=
  ⟨⟨32, SOL_IP, IP_RECVORIGDSTADDR⟩,
    ⟨[2, 0, 0x01, 0xBB, 93, 184, 216, 34, 0, 0, 0, 0, 0, 0, 0, 0], List.replicate 32 0⟩⟩

/-- An IPv4 original-destination record with an empty payload, as parsed from the start
of the 64-byte `oob` buffer: a header of length 16 and no payload bytes; the 48 remaining
bytes of the buffer lie behind it. -/
def emptyRecord4 : SocketControlMessage :=
  ⟨⟨16, SOL_IP, IP_RECVORIGDSTADDR⟩, ⟨[], List.replicate 48 0⟩⟩

/-- A client address used in examples: 10.0.0.7:40000. -/
def sampleClient4 : Sockaddr := .SockaddrInet4 40000 ⟨[10, 0, 0, 7], rfl⟩

/-! ## Text forms of ports and addresses (Go standard library)

`fmt.Sprintf("%d", _)`, `net.IP.To4` and `net.IP.String` belong to the Go standard
library.  They are written out here from their definitions: decimal digits without
leading zeros, dotted quad for a 4-byte address and for an IPv4-mapped 16-byte
address, and for any other 16-byte address eight lower-case hexadecimal groups in
which the first longest run of two or more zero groups is replaced by `::`. -/

/-- Go `fmt.Sprintf("%d", i)` for an `int`. -/
def fmtInt : Int → List Char
  | .ofNat n => Nat.toDigits 10 n
  | .negSucc n => '-' :: Nat.toDigits 10 (n + 1)

/-- Go `net.uitoa`: decimal digits of an unsigned integer. -/
def uitoa (n : Nat) : List Char := Nat.toDigits 10 n

/-- Go `net.appendHex`: the hexadecimal digits of a `uint32`, without leading zeros,
appended to `dst`. -/
def appendHex (dst : List Char) (i : Nat) : List Char :=
  if i = 0 then dst ++ ['0']
  else dst ++ [7, 6, 5, 4, 3, 2, 1, 0].filterMap fun j =>
    let v := i >>> (j * 4)
    if v > 0 then some (Nat.digitChar (v &&& 0xf)) else none

/-- Go `net.hexString`: two hexadecimal digits per byte. -/
def hexString (b : List Byte) : List Char :=
  b.flatMap fun tn => [Nat.digitChar (tn.val >>> 4), Nat.digitChar (tn.val &&& 0xf)]

/-- Go `net.IP.To4`: the 4-byte form of an IPv4 address, `none` for Go `nil`. -/
def IP.To4 (ip : List Byte) : Option (List Byte) :=
  if ip.length = 4 then some ip
  else if ip.length = 16 ∧ ip.take 10 = List.replicate 10 0 ∧
      ip.getD 10 0 = 0xff ∧ ip.getD 11 0 = 0xff then
    some ((ip.drop 12).take 4)
  else none

/-- The 16-bit groups `(uint32(p[i])<<8)|uint32(p[i+1])` of an address, `i = 0, 2, ...`. -/
def groups : List Byte → List Nat
  | a :: b :: rest => (a.val <<< 8 ||| b.val) :: groups rest
  | _ => []

/-- Number of zero groups at the head of a list. -/
def leadingZeros : List Nat → Nat
  | 0 :: t => leadingZeros t + 1
  | _ => 0

/-- Scan of `net.IP.String` for the longest run of zero groups: `best` is the start and
length of the longest run found so far, replaced only by a strictly longer one. -/
def longestZeroRun.go : List Nat → Nat → Nat × Nat → Nat × Nat
  | [], _, best => best
  | g :: t, i, best =>
    longestZeroRun.go t (i + 1)
      (if leadingZeros (g :: t) > best.2 then (i, leadingZeros (g :: t)) else best)

/-- The run `[e0, e1)` of zero groups that `net.IP.String` writes as `::`: the first
longest run, and none when it would shorten a single group only. -/
def longestZeroRun (gs : List Nat) : Option (Nat × Nat) :=
  let best := longestZeroRun.go gs 0 (0, 0)
  if best.2 ≤ 1 then none else some (best.1, best.1 + best.2)

/-- Hexadecimal groups separated by `:`. -/
def joinColon (gs : List Nat) : List Char :=
  [':'].intercalate (gs.map (appendHex []))

/-- The IPv6 text form written by `net.IP.String` for a 16-byte address. -/
def ip6Text (p : List Byte) : List Char :=
  match longestZeroRun (groups p) with
  | none => joinColon (groups p)
  | some (e0, e1) =>
    joinColon ((groups p).take e0) ++ [':', ':'] ++ joinColon ((groups p).drop e1)

/-- Dotted-quad text of four bytes. -/
def dottedQuad (a b c d : Byte) : List Char :=
  uitoa a.val ++ ['.'] ++ uitoa b.val ++ ['.'] ++ uitoa c.val ++ ['.'] ++ uitoa d.val

/-- Go `net.IP.String`. -/
def IP.String (ip : List Byte) : String :=
  if ip.length = 0 then "<nil>"
  else
    match IP.To4 ip with
    | some [a, b, c, d] => ⟨dottedQuad a b c d⟩
    | _ => if ip.length ≠ 16 then ⟨'?' :: hexString ip⟩ else ⟨ip6Text ip⟩

/-- Go `net.JoinHostPort`. -/
def JoinHostPort (host port : String) : String :=
  if ':' ∈ host.data then "[" ++ host ++ "]:" ++ port else host ++ ":" ++ port

/-! ### Readers used to invert the text forms -/

/-- Value of a decimal digit character. -/
def digitVal (c : Char) : Nat := c.toNat - 48

/-- Value of a string of decimal digits. -/
def decValue (cs : List Char) : Nat := cs.foldl (fun acc c => acc * 10 + digitVal c) 0

/-- Value of a lower-case hexadecimal digit character. -/
def hexDigitVal (c : Char) : Nat := if c.isDigit then c.toNat - 48 else c.toNat - 87

/-- Value of a string of hexadecimal digits. -/
def hexValue (cs : List Char) : Nat := cs.foldl (fun acc c => acc * 16 + hexDigitVal c) 0

/-- The digits the loop of `appendHex` emits for the nibbles below position `k`. -/
def hexEmit (i : Nat) (k : Nat) : List Char :=
  (List.range k).reverse.filterMap fun j =>
    let v := i >>> (j * 4)
    if v > 0 then some (Nat.digitChar (v &&& 0xf)) else none

/-- The text of `ip6Text` cut at its colons: hexadecimal groups, with empty pieces where
`::` stands. -/
def ip6Tokens (g : List Nat) : List (List Char) :=
  match longestZeroRun g with
  | none => g.map (appendHex [])
  | some (e0, e1) =>
    (if g.take e0 = [] then [[]] else (g.take e0).map (appendHex [])) ++ [[]] ++
      (if g.drop e1 = [] then [[]] else (g.drop e1).map (appendHex []))

/-- Reads eight groups back from the pieces of an IPv6 text. -/
def untokens (ts : List (List Char)) : List Nat :=
  let pre := ts.takeWhile (fun t => !t.isEmpty)
  let post := (ts.dropWhile (fun t => !t.isEmpty)).filter (fun t => !t.isEmpty)
  pre.map hexValue ++ List.replicate (8 - pre.length - post.length) 0 ++ post.map hexValue

/-! ## UDP sessions: `tudpSession`, `getTUDPSession` -/

/-- A handle of the upstream tunnel (`mux.MuxStream`); `id` is its identity. -/
structure MuxStream where
  id : Nat
  deriving DecidableEq, Repr

/-- The fields of `ProxyConfig` the transparent proxy reads. -/
structure ProxyConfig where
  UDPReadMSTimeout : Int
  DNSReadMSTimeout : Int
  deriving DecidableEq, Repr

/-- Go `tudpSession`.  The field `local` is spelled `local_`; a `nil` stream is `none`. -/
structure tudpSession where
  local_ : Sockaddr
  remote : Sockaddr
  conf : ProxyConfig
  stream : Option MuxStream
  key : String
  remoteHost : String
  remotePort : String
  localHost : String
  localPort : String
  deriving DecidableEq, Repr

/-- The process-wide `tudpSessions sync.Map`: session keys with the address of their
`*tudpSession`. -/
abbrev SessionTable := List (String × Nat)

/-- Go `sync.Map.Load`. -/
def SessionTable.Load (m : SessionTable) (key : String) : Option Nat :=
  (m.find? fun e => e.1 = key).map Prod.snd

/-- Go `sync.Map.LoadOrStore`: the value stored under `key` if there is one, otherwise
`value`, which is then stored. -/
def SessionTable.LoadOrStore (m : SessionTable) (key : String) (value : Nat) :
    Nat × Bool × SessionTable :=
  match m.Load key with
  | some actual => (actual, true, m)
  | none => (value, false, (key, value) :: m)

/-- Go `sync.Map.Delete`. -/
def SessionTable.Delete (m : SessionTable) (key : String) : SessionTable :=
  m.filter fun e => e.1 ≠ key

/-- Heap of allocated sessions and the session table. -/
structure ProxyState where
  heap : List tudpSession
  tudpSessions : SessionTable
  deriving DecidableEq, Repr

/-- Lines 143-165 of `getTUDPSession`: the session object `t` built for an endpoint pair,
with its key.  The unchecked type assertions `laddr.(*syscall.SockaddrInet4)` and
`laddr.(*syscall.SockaddrInet6)` panic on an address of the other family. -/
def newSession (proxy : ProxyConfig) (laddr raddr : Sockaddr) : GoResult tudpSession :=
  match raddr with
  | .SockaddrInet4 rport raddr4 =>
    match laddr with
    | .SockaddrInet4 lport laddr4 =>
      let remotePort : String := ⟨fmtInt rport⟩
      let localPort : String := ⟨fmtInt lport⟩
      let ip := List.replicate 4 (0 : Byte)
      let ip := goCopy ip raddr4.val
      let remoteHost := IP.String ip
      let ip := goCopy ip laddr4.val
      let localHost := IP.String ip
      .ok { local_ := laddr, remote := raddr, conf := proxy, stream := none,
            remoteHost := remoteHost, remotePort := remotePort,
            localHost := localHost, localPort := localPort,
            key := localHost ++ ":" ++ localPort ++ "-" ++ remoteHost ++ ":" ++ remotePort }
    | _ => .panic .typeAssertion
  | .SockaddrInet6 rport _ raddr6 =>
    match laddr with
    | .SockaddrInet6 lport _ laddr6 =>
      let remotePort : String := ⟨fmtInt rport⟩
      let localPort : String := ⟨fmtInt lport⟩
      let ip := List.replicate 16 (0 : Byte)
      let ip := goCopy ip raddr6.val
      let remoteHost := IP.String ip
      let ip := goCopy ip laddr6.val
      let localHost := IP.String ip
      .ok { local_ := laddr, remote := raddr, conf := proxy, stream := none,
            remoteHost := remoteHost, remotePort := remotePort,
            localHost := localHost, localPort := localPort,
            key := localHost ++ ":" ++ localPort ++ "-" ++ remoteHost ++ ":" ++ remotePort }
    | _ => .panic .typeAssertion

/-- Model of `getTUDPSession`: allocate `t`, then `tudpSessions.LoadOrStore(t.key, t)`.
The result is the address of the returned session and the new state. -/
def getTUDPSession (st : ProxyState) (proxy : ProxyConfig) (laddr raddr : Sockaddr) :
    GoResult (Nat × ProxyState) := do
  let t ← newSession proxy laddr raddr
  let addr := st.heap.length
  let (actual, _, table) := st.tudpSessions.LoadOrStore t.key addr
  pure (actual, { heap := st.heap ++ [t], tudpSessions := table })

/-- The address family of a socket address. -/
def Sockaddr.family : Sockaddr → Family
  | .SockaddrInet4 _ _ => .inet4
  | .SockaddrInet6 _ _ _ => .inet6

/-- The port of a socket address. -/
def Sockaddr.port : Sockaddr → Int
  | .SockaddrInet4 p _ => p
  | .SockaddrInet6 p _ _ => p

/-- The address bytes of a socket address. -/
def Sockaddr.addr : Sockaddr → List Byte
  | .SockaddrInet4 _ a => a.val
  | .SockaddrInet6 _ _ a => a.val

/-- The address of an endpoint with an IPv4-mapped IPv6 address (`::ffff:a.b.c.d`) read
as the IPv4 address `a.b.c.d`, and its port: what the text of a session key shows. -/
def Sockaddr.shown (s : Sockaddr) : List Byte × Int :=
  ((IP.To4 s.addr).getD s.addr, s.port)

/-- The key `getTUDPSession` derives for an endpoint pair of one family. -/
def sessionKey (laddr raddr : Sockaddr) : String :=
  IP.String laddr.addr ++ ":" ++ ⟨fmtInt laddr.port⟩ ++ "-" ++
    IP.String raddr.addr ++ ":" ++ ⟨fmtInt raddr.port⟩

/-- Well-formed proxy states: every key is stored once, no two keys share a session, and
every stored address is that of an allocated session.  The empty state is well formed and
`getTUDPSession` keeps states well formed. -/
def ProxyState.wf (st : ProxyState) : Prop :=
  (st.tudpSessions.map Prod.fst).Nodup ∧ (st.tudpSessions.map Prod.snd).Nodup ∧
    ∀ e ∈ st.tudpSessions, e.2 < st.heap.length

/-- Empty proxy state. -/
def ProxyState.empty : ProxyState := { heap := [], tudpSessions := [] }

/-- Configuration used in examples. -/
def sampleConf : ProxyConfig := { UDPReadMSTimeout := 15000, DNSReadMSTimeout := 2000 }

/-- A DNS server address used in examples: 203.0.113.5:53. -/
def sampleDns4 : Sockaddr := .SockaddrInet4 53 ⟨[203, 0, 113, 5], rfl⟩

/-- The IPv4-mapped IPv6 form of `sampleClient4`: `[::ffff:10.0.0.7]:40000`. -/
def sampleClientMapped : Sockaddr :=
  .SockaddrInet6 40000 0 ⟨[0, 0, 0, 0, 0, 0, 0, 0, 0, 0, 0xff, 0xff, 10, 0, 0, 7], rfl⟩

/-- The IPv4-mapped IPv6 form of `sampleDns4`: `[::ffff:203.0.113.5]:53`. -/
def sampleDnsMapped : Sockaddr :=
  .SockaddrInet6 53 0 ⟨[0, 0, 0, 0, 0, 0, 0, 0, 0, 0, 0xff, 0xff, 203, 0, 113, 5], rfl⟩

/-- An IPv6 client address used in examples: `[2001:db8::7]:40000`. -/
def sampleClient6 : Sockaddr :=
  .SockaddrInet6 40000 0 ⟨[0x20, 0x01, 0x0d, 0xb8, 0, 0, 0, 0, 0, 0, 0, 0, 0, 0, 0, 7], rfl⟩

/-- An IPv6 server address used in examples: `[2001:db8::53]:53`. -/
def sampleDns6 : Sockaddr :=
  .SockaddrInet6 53 0 ⟨[0x20, 0x01, 0x0d, 0xb8, 0, 0, 0, 0, 0, 0, 0, 0, 0, 0, 0, 0x53], rfl⟩

/-! ## Calls into the kernel and the upstream tunnel -/

/-- Linux `syscall.AF_INET`. -/
def AF_INET : Int := 2
/-- Linux `syscall.AF_INET6`. -/
def AF_INET6 : Int := 10
/-- Linux `syscall.SOCK_DGRAM`. -/
def SOCK_DGRAM : Int := 2
/-- Linux `syscall.IP_TRANSPARENT`. -/
def IP_TRANSPARENT : Int := 19
/-- Linux `syscall.SO_REUSEADDR`. -/
def SO_REUSEADDR : Int := 2

/-- The calls the proxy issues to its collaborators, in program order. -/
inductive Event where
  | selectChannel (protocol host : String)
  | getMuxStream (channel : String)
  | connect (s : MuxStream) (network addr : String)
  | spawnReader (s : MuxStream) (readTimeout : Int)
  | streamWrite (s : MuxStream) (p : List Byte)
  | streamClose (s : MuxStream)
  | setReadDeadline (s : MuxStream) (timeout : Int)
  | streamRead (s : MuxStream)
  | tableDelete (key : String)
  | socket (family typ proto : Int)
  | setsockoptInt (fd : Nat) (level opt value : Int)
  | bind (fd : Nat) (sa : Sockaddr)
  | sendto (fd : Nat) (p : List Byte) (flags : Int) (dest : Sockaddr)
  | closeFd (fd : Nat)
  deriving DecidableEq, Repr

/-- Outcomes of the system calls of one `writeBackUDPData` call. -/
structure ReplySyscalls where
  socket : Except GoError Nat
  setTransparent : Option GoError
  setReuseAddr : Option GoError
  bind : Option GoError
  sendto : Option GoError

/-! ## `writeBackUDPData` -/

/-- Lines 274-277 of `writeBackUDPData`: the socket family, `AF_INET6` when `local` is a
`*syscall.SockaddrInet6` and `AF_INET` otherwise. -/
def replyFamily : Sockaddr → Int
  | .SockaddrInet6 _ _ _ => AF_INET6
  | _ => AF_INET

/-- Model of `writeBackUDPData(data, local, remote)`: the returned error and the system
calls issued.  The deferred `syscall.Close(socketFd)` runs at every return after the socket
was created. -/
def writeBackUDPData (sys : ReplySyscalls) (data : List Byte) (laddr remote : Sockaddr) :
    Option GoError × List Event :=
  let family := replyFamily laddr
  let evSocket := [Event.socket family SOCK_DGRAM 0]
  match sys.socket with
  | .error err => (some err, evSocket)
  | .ok socketFd =>
    let evTransparent := [Event.setsockoptInt socketFd SOL_IP IP_TRANSPARENT 1]
    match sys.setTransparent with
    | some err => (some err, evSocket ++ evTransparent ++ [Event.closeFd socketFd])
    | none =>
      let evReuse := [Event.setsockoptInt socketFd SOL_IP SO_REUSEADDR 1]
      let evBind := [Event.bind socketFd remote]
      match sys.bind with
      | some err =>
        (some err, evSocket ++ evTransparent ++ evReuse ++ evBind ++ [Event.closeFd socketFd])
      | none =>
        (sys.sendto, evSocket ++ evTransparent ++ evReuse ++ evBind ++
          [Event.sendto socketFd data 0 laddr, Event.closeFd socketFd])

/-! ## `tudpSession.close`, `tudpSession.handle` and the reader goroutine -/

/-- Outcomes of the calls `tudpSession.handle` makes into its collaborators:
channel selection (`ProxyConfig.getProxyChannelByHost`), `getMuxStreamByChannel`, and the
stream's `Connect` and `Write`. -/
structure Upstream where
  getProxyChannelByHost : ProxyConfig → String → String → String
  getMuxStreamByChannel : String → Option MuxStream × Option GoError
  Connect : MuxStream → String → String → Option GoError
  Write : MuxStream → List Byte → Int × Option GoError

/-- Go `time.Duration(ms) * time.Millisecond`, an `int64` number of nanoseconds. -/
def msDuration (ms : Int) : Int := (ms * 1000000 + 2 ^ 63) % 2 ^ 64 - 2 ^ 63

/-- Model of `tudpSession.close`: the new session table and the calls issued. -/
def tudpSession.close (t : tudpSession) (table : SessionTable) : SessionTable × List Event :=
  let evStream := match t.stream with
    | some s => [Event.streamClose s]
    | none => []
  (table.Delete t.key, evStream ++ [Event.tableDelete t.key])

/-- The assignment `t.stream = stream`. -/
def tudpSession.setStream (t : tudpSession) (stream : MuxStream) : tudpSession :=
  { t with stream := some stream }

/-- Lines 133-137 of `tudpSession.handle`: the statements after the set-up block. -/
def tudpSession.handle.forward (up : Upstream) (t : tudpSession) (p : List Byte)
    (table : SessionTable) : tudpSession × SessionTable × List Event :=
  match t.stream with
  | none =>
    let (table, ev) := t.close table
    (t, table, ev)
  | some s =>
    let _ := up.Write s p
    (t, table, [Event.streamWrite s p])

/-- Model of `tudpSession.handle(p)`: the session after the call, the session table
after the call, and the calls issued.  The reader goroutine started by `go func()` is
recorded as `spawnReader`; its body is `tudpSession.reader`. -/
def tudpSession.handle (up : Upstream) (t : tudpSession) (p : List Byte)
    (table : SessionTable) : tudpSession × SessionTable × List Event :=
  match t.stream with
  | none =>
    let protocol := if t.remotePort = "53" then "dns" else "udp"
    let readTimeout :=
      if t.remotePort = "53" then msDuration t.conf.DNSReadMSTimeout
      else msDuration t.conf.UDPReadMSTimeout
    let proxyChannelName := up.getProxyChannelByHost t.conf protocol t.remoteHost
    let evSelect := [Event.selectChannel protocol t.remoteHost]
    if proxyChannelName.length = 0 then
      let (table, ev) := t.close table
      (t, table, evSelect ++ ev)
    else
      let evOpen := [Event.getMuxStream proxyChannelName]
      match up.getMuxStreamByChannel proxyChannelName with
      | (none, _) =>
        let (table, ev) := t.close table
        (t, table, evSelect ++ evOpen ++ ev)
      | (some stream, _) =>
        let addr := JoinHostPort t.remoteHost t.remotePort
        let evConnect := [Event.connect stream "udp" addr]
        match up.Connect stream "udp" addr with
        | some _ =>
          let (table, ev) := t.close table
          (t, table, evSelect ++ evOpen ++ evConnect ++ ev)
        | none =>
          let t := t.setStream stream
          let evSpawn := [Event.spawnReader stream readTimeout]
          let (t, table, ev) := tudpSession.handle.forward up t p table
          (t, table, evSelect ++ evOpen ++ evConnect ++ evSpawn ++ ev)
  | some _ => tudpSession.handle.forward up t p table

/-- Outcome of one iteration's calls in the reader goroutine: the bytes `b[0:n]` that
`stream.Read(b)` delivered, its error, and the outcomes of the system calls of
`writeBackUDPData` should it be called. -/
structure ReadOutcome where
  data : List Byte
  err : Option GoError
  reply : ReplySyscalls

/-- The `for` loop of the reader goroutine, one supplied outcome per iteration.  The
result is `some uerr` when the loop has ended and `none` when it is still waiting in
`stream.Read` after the supplied outcomes, with the calls issued so far. -/
def tudpSession.reader.loop (t : tudpSession) (stream : MuxStream) (readTimeout : Int) :
    List ReadOutcome → Option (Option GoError) × List Event
  | [] => (none, [Event.setReadDeadline stream readTimeout, Event.streamRead stream])
  | o :: rest =>
    let evRead := [Event.setReadDeadline stream readTimeout, Event.streamRead stream]
    let (err, evReply) :=
      if o.data.length > 0 then writeBackUDPData o.reply o.data t.local_ t.remote
      else (o.err, [])
    if err.isSome then (some err, evRead ++ evReply)
    else if t.remotePort = "53" then (some err, evRead ++ evReply)
    else
      let (r, ev) := tudpSession.reader.loop t stream readTimeout rest
      (r, evRead ++ evReply ++ ev)

/-- Model of the reader goroutine started by `tudpSession.handle`: whether it has
finished, the session table afterwards, and the calls issued. -/
def tudpSession.reader (t : tudpSession) (stream : MuxStream) (readTimeout : Int)
    (outcomes : List ReadOutcome) (table : SessionTable) : Bool × SessionTable × List Event :=
  match tudpSession.reader.loop t stream readTimeout outcomes with
  | (none, ev) => (false, table, ev)
  | (some _, ev) =>
    let (table, evClose) := t.close table
    (true, table, ev ++ evClose)

/-! ## `getOrinalTCPRemoteAddr` -/

/-- Linux `syscall.IPPROTO_IP`. -/
def IPPROTO_IP : Int := 0
/-- Linux `syscall.IPPROTO_IPV6`. -/
def IPPROTO_IPV6 : Int := 41
/-- Source constant `SO_ORIGINAL_DST`. -/
def SO_ORIGINAL_DST : Int := 80
/-- Source constant `IP6T_SO_ORIGINAL_DST`. -/
def IP6T_SO_ORIGINAL_DST : Int := 80

/-- Byte order of the machine the proxy runs on. -/
inductive ByteOrder where
  | littleEndian
  | bigEndian
  deriving DecidableEq, Repr

/-- A Go `uint16` struct field read from the two bytes at `off`, in host byte order. -/
def loadUint16 (order : ByteOrder) (mem : List Byte) (off : Nat) : Nat :=
  match order with
  | .littleEndian => (mem.getD off 0).val + 256 * (mem.getD (off + 1) 0).val
  | .bigEndian => 256 * (mem.getD off 0).val + (mem.getD (off + 1) 0).val

/-- The memory of a Go `syscall.IPv6MTUInfo` (32 bytes) as filled by `getsockopt`: the
kernel stores a `sockaddr_in6` there, so `Addr.Port` lies at bytes 2-3 and `Addr.Addr`
at bytes 8-23. -/
abbrev IPv6MTUInfo := { m : List Byte // m.length = 32 }

/-- The memory of a Go `syscall.IPv6Mreq` (20 bytes) as filled by `getsockopt`: the
kernel stores a `sockaddr_in` there, inside `Multiaddr` (bytes 0-15). -/
abbrev IPv6Mreq := { m : List Byte // m.length = 20 }

/-- Go field `ipv6Addr.Addr.Port`. -/
def IPv6MTUInfo.Port (order : ByteOrder) (v : IPv6MTUInfo) : Nat := loadUint16 order v.val 2

/-- Go field `ipv6Addr.Addr.Addr`. -/
def IPv6MTUInfo.Addr (v : IPv6MTUInfo) : List Byte := (v.val.drop 8).take 16

/-- Go `ipv4Addr.Multiaddr[i]`, for a constant index `i < 16`. -/
def IPv6Mreq.Multiaddr (v : IPv6Mreq) (i : Nat) : Byte := v.val.getD i 0

/-- Go `net.IPv4(a, b, c, d)`: the 16-byte form of an IPv4 address. -/
def IPv4 (a b c d : Byte) : List Byte :=
  [0, 0, 0, 0, 0, 0, 0, 0, 0, 0, 0xff, 0xff, a, b, c, d]

/-- The dynamic type of the `net.Conn` handed to `getOrinalTCPRemoteAddr`. -/
inductive ConnKind where
  | tcpConn
  | other (typeName : String)
  deriving DecidableEq, Repr

/-- Outcomes of the calls of one `getOrinalTCPRemoteAddr` call. -/
structure ResolverCalls where
  file : Except GoError Nat
  origDst6 : Except GoError IPv6MTUInfo
  origDst4 : Except GoError IPv6Mreq
  fileConn : Except GoError Nat

/-- The calls `getOrinalTCPRemoteAddr` issues, in program order. -/
inductive ResolverEvent where
  | tcpFile
  | tcpClose
  | getsockopt (fd : Nat) (level opt : Int)
  | fileClose (fd : Nat)
  | fileConn (fd : Nat)
  deriving DecidableEq, Repr

/-- Model of `getOrinalTCPRemoteAddr(conn)` on a host of byte order `order`: on success
the new connection, the address as a `net.IP` and the port; with the calls issued. -/
def getOrinalTCPRemoteAddr (order : ByteOrder) (conn : ConnKind) (sys : ResolverCalls) :
    GoResult (Nat × List Byte × Nat) × List ResolverEvent :=
  match conn with
  | .other typeName => (.err (.errorf ("Invalid connection with type:" ++ typeName)), [])
  | .tcpConn =>
    match sys.file with
    | .error err => (.err err, [.tcpFile])
    | .ok fd =>
      let ev := [ResolverEvent.tcpFile, .tcpClose, .getsockopt fd IPPROTO_IPV6 IP6T_SO_ORIGINAL_DST]
      let finish (ev : List ResolverEvent) (ip : List Byte) (port : Nat) :
          GoResult (Nat × List Byte × Nat) × List ResolverEvent :=
        match sys.fileConn with
        | .error err => (.err err, ev ++ [.fileConn fd, .fileClose fd])
        | .ok newConn => (.ok (newConn, ip, port), ev ++ [.fileConn fd])
      match sys.origDst6 with
      | .error _ =>
        let ev := ev ++ [.getsockopt fd IPPROTO_IP SO_ORIGINAL_DST]
        match sys.origDst4 with
        | .error err => (.err err, ev ++ [.fileClose fd])
        | .ok ipv4Addr =>
          let port := (((ipv4Addr.Multiaddr 2).val <<< 8) % 2 ^ 16
            + (ipv4Addr.Multiaddr 3).val) % 2 ^ 16
          let ip := IPv4 (ipv4Addr.Multiaddr 4) (ipv4Addr.Multiaddr 5) (ipv4Addr.Multiaddr 6)
            (ipv4Addr.Multiaddr 7)
          finish ev ip port
      | .ok ipv6Addr =>
        let port := ipv6Addr.Port order
        let ip := goCopy (List.replicate 16 0) ipv6Addr.Addr
        finish ev ip port

/-- The kernel's answer for original destination `[2001:db8::1]:443`, as the memory of
the `IPv6MTUInfo` value: family `AF_INET6` (host order, little-endian), port bytes
`01 BB` (network order), flow info, address, scope id, and the unused `Mtu` field. -/
def sampleOrigDst6 : IPv6MTUInfo :=
  ⟨[10, 0, 0x01, 0xBB, 0, 0, 0, 0,
    0x20, 0x01, 0x0d, 0xb8, 0, 0, 0, 0, 0, 0, 0, 0, 0, 0, 0, 1,
    0, 0, 0, 0, 0, 0, 0, 0], rfl⟩

/-- The kernel's answer for original destination `93.184.216.34:443`, as the memory of
the `IPv6Mreq` value. -/
def sampleOrigDst4 : IPv6Mreq :=
  ⟨[2, 0, 0x01, 0xBB, 93, 184, 216, 34, 0, 0, 0, 0, 0, 0, 0, 0, 0, 0, 0, 0], rfl⟩

/-- Outcomes in which every call of the resolver succeeds and the IPv6 query answers
`sampleOrigDst6`. -/
def sampleResolver6 : ResolverCalls :=
  { file := .ok 5, origDst6 := .ok sampleOrigDst6, origDst4 := .error (.errno 92),
    fileConn := .ok 9 }

/-! ## Sample sessions and collaborators -/

/-- The session `getTUDPSession` builds for `sampleClient4` and `sampleDns4`. -/
def sampleSessionDns : tudpSession :=
  { local_ := sampleClient4, remote := sampleDns4, conf := sampleConf, stream := none,
    key := "10.0.0.7:40000-203.0.113.5:53", remoteHost := "203.0.113.5", remotePort := "53",
    localHost := "10.0.0.7", localPort := "40000" }

/-- A web server address used in examples: 93.184.216.34:443. -/
def sampleWeb4 : Sockaddr := .SockaddrInet4 443 ⟨[93, 184, 216, 34], rfl⟩

/-- The session `getTUDPSession` builds for `sampleClient4` and `sampleWeb4`, in state
Forwarding: its upstream stream is open. -/
def sampleSessionWeb : tudpSession :=
  { local_ := sampleClient4, remote := sampleWeb4, conf := sampleConf,
    stream := some ⟨1⟩,
    key := "10.0.0.7:40000-93.184.216.34:443", remoteHost := "93.184.216.34",
    remotePort := "443", localHost := "10.0.0.7", localPort := "40000" }

/-- A session table holding `sampleSessionWeb` at address 0. -/
def sampleTable : SessionTable := [("10.0.0.7:40000-93.184.216.34:443", 0)]

/-- Collaborators that know no route, and whose stream `Write` fails with `EPIPE`. -/
def sampleUpstreamFailing : Upstream :=
  { getProxyChannelByHost := fun _ _ _ => "",
    getMuxStreamByChannel := fun _ => (none, some (.errno 111)),
    Connect := fun _ _ _ => some (.errno 111),
    Write := fun _ _ => (0, some (.errno 32)) }

/-- System-call outcomes of a reply in which every call succeeds. -/
def replyOk : ReplySyscalls :=
  { socket := .ok 7, setTransparent := none, setReuseAddr := none, bind := none,
    sendto := none }

/-- System-call outcomes of a reply in which only the address-reuse option call fails. -/
def replyReuseFails : ReplySyscalls :=
  { socket := .ok 7, setTransparent := none, setReuseAddr := some (.errno 92), bind := none,
    sendto := none }

/-- System-call outcomes of a reply whose `Bind` fails with `EADDRNOTAVAIL`. -/
def replyBindFails : ReplySyscalls :=
  { socket := .ok 7, setTransparent := none, setReuseAddr := none, bind := some (.errno 99),
    sendto := none }

/-- The session `getTUDPSession` builds for the IPv4-mapped pair `sampleClientMapped`,
`sampleDnsMapped`. -/
def sampleSessionMapped : tudpSession :=
  { local_ := sampleClientMapped, remote := sampleDnsMapped, conf := sampleConf,
    stream := none,
    key := "10.0.0.7:40000-203.0.113.5:53", remoteHost := "203.0.113.5", remotePort := "53",
    localHost := "10.0.0.7", localPort := "40000" }

/-- The addresses two consecutive `getTUDPSession` calls return, starting from `st`. -/
def routeTwo (st : ProxyState) (p1 p2 : ProxyConfig) (l1 r1 l2 r2 : Sockaddr) :
    GoResult (Nat × Nat) := do
  let (a, st1) ← getTUDPSession st p1 l1 r1
  let (b, _) ← getTUDPSession st1 p2 l2 r2
  pure (a, b)

/-- Whether an event is a `Sendto` system call, the relay of a reply. -/
def Event.isSendto : Event → Bool
  | .sendto _ _ _ _ => true
  | _ => false

/-- Whether an event is a `Read` on the upstream stream. -/
def Event.isStreamRead : Event → Bool
  | .streamRead _ => true
  | _ => false

/-- A read outcome that delivers a two-byte reply without error. -/
def sampleReadOk : ReadOutcome := { data := [7, 9], err := none, reply := replyOk }

/-- A read outcome that delivers two bytes together with the error `ECONNRESET`. -/
def sampleReadBytesAndError : ReadOutcome :=
  { data := [7, 9], err := some (.errno 104), reply := replyOk }

/-- Collaborators with no route for any destination. -/
def sampleUpstreamNoRoute : Upstream :=
  { getProxyChannelByHost := fun _ _ _ => "",
    getMuxStreamByChannel := fun _ => (some ⟨1⟩, none),
    Connect := fun _ _ _ => none,
    Write := fun _ p => (p.length, none) }

/-! # Theorems -/

/-! ## Run-time model -/

theorem GoBytes.index_ok (s : GoBytes) (i : Nat) (h : i < s.len) :
    s.index i = .ok (s.elems.getD i 0) := by
  unfold GoBytes.index GoBytes.len at *
  rw [List.getElem?_eq_getElem h, List.getD_eq_getElem _ _ h]

theorem GoBytes.index_panic (s : GoBytes) (i : Nat) (h : s.len ≤ i) :
    s.index i = .panic .indexOutOfRange := by
  unfold GoBytes.index GoBytes.len at *
  rw [List.getElem?_eq_none h]

theorem GoBytes.slice_ok (s : GoBytes) (lo hi : Nat) (h1 : lo ≤ hi) (h : hi ≤ s.len) :
    s.slice lo hi = .ok (payloadSlice s.elems lo hi) := by
  unfold GoBytes.slice GoBytes.cap GoBytes.len payloadSlice at *
  rw [if_pos ⟨h1, by omega⟩]
  congr 1
  rw [List.drop_append_of_le_length (by omega), List.take_append_of_le_length]
  simp; omega

theorem Addr4_copyFrom_val (l : List Byte) (h : l.length = 4) : (Addr4.copyFrom l).val = l := by
  simp [Addr4.copyFrom, goCopy, h]

theorem Addr16_copyFrom_val (l : List Byte) (h : l.length = 16) :
    (Addr16.copyFrom l).val = l := by
  simp [Addr16.copyFrom, goCopy, h]

theorem payloadSlice_length (l : List Byte) (lo hi : Nat) (h : hi ≤ l.length) :
    (payloadSlice l lo hi).length = hi - lo := by
  simp [payloadSlice]; omega

/-! ## The datagram decoder -/

theorem isOrigDst4_iff (m : SocketControlMessage) :
    isOrigDst4 m = true ↔ (m.Header.Level = SOL_IP ∧ m.Header.Type_ = IP_RECVORIGDSTADDR) := by
  simp [isOrigDst4]

theorem isOrigDst6_iff (m : SocketControlMessage) :
    isOrigDst6 m = true ↔
      (m.Header.Level = SOL_IPV6 ∧ m.Header.Type_ = IPV6_RECVORIGDSTADDR) := by
  simp [isOrigDst6]

/-- C1. The decoder of `recvTransparentUDP` equals the reference decoder on the parsed
control-message list: whenever the first original-destination record (if any) has a
payload of at least 8 bytes (IPv4) or 24 bytes (IPv6), the call returns the received
bytes, the sender, and the endpoint with port `payload[2]*256 + payload[3]` and address
`payload[4..8)` (IPv4) or `payload[8..24)` (IPv6); when no record matches it returns the
not-found error and no endpoint. -/
theorem recvTransparentUDP_refines_reference (data : List Byte) (laddr : Sockaddr)
    (msgs : List SocketControlMessage) (h : payloadLongEnough msgs) :
    decodedEndpoint (recvTransparentUDP (.ok (data, laddr)) (.ok msgs))
        = ofReference data laddr (referenceDecode msgs) ∧
      (msgs.find? isOrigDst = none →
        recvTransparentUDP (.ok (data, laddr)) (.ok msgs) = .err errNoOrigDst) := by
  have href : decodedEndpoint (recvTransparentUDP.loop data laddr msgs)
      = ofReference data laddr (referenceDecode msgs) := by
    induction msgs with
    | nil => rfl
    | cons m rest ih =>
      unfold payloadLongEnough at h
      by_cases h4 : isOrigDst4 m = true
      · have hf : (m :: rest).find? isOrigDst = some m := by simp [List.find?, isOrigDst, h4]
        have hlen := h m hf
        simp only [requiredPayload, h4, if_true] at hlen
        have hc := (isOrigDst4_iff m).1 h4
        simp only [recvTransparentUDP.loop, referenceDecode, hf, if_pos hc, h4, if_true]
        simp only [bind, GoResult.bind, pure, GoBytes.index_ok m.Data 2 (by omega),
          GoBytes.index_ok m.Data 3 (by omega),
          GoBytes.slice_ok _ 4 8 (by omega) hlen, decodedEndpoint, ofReference, Sockaddr.toEndpoint]
        rw [Addr4_copyFrom_val _ (by rw [payloadSlice_length _ _ _ hlen])]
        simp [Nat.shiftLeft_eq]
      · have hc : ¬ (m.Header.Level = SOL_IP ∧ m.Header.Type_ = IP_RECVORIGDSTADDR) :=
          fun hh => h4 ((isOrigDst4_iff m).2 hh)
        by_cases h6 : isOrigDst6 m = true
        · have hf : (m :: rest).find? isOrigDst = some m := by simp [List.find?, isOrigDst, h6]
          have hlen : 24 ≤ m.Data.len := by simpa [requiredPayload, h4] using h m hf
          have hc6 := (isOrigDst6_iff m).1 h6
          simp only [recvTransparentUDP.loop, referenceDecode, hf, if_neg hc, if_pos hc6, h4]
          simp only [bind, GoResult.bind, pure, GoBytes.index_ok m.Data 2 (by omega),
            GoBytes.index_ok m.Data 3 (by omega),
            GoBytes.slice_ok _ 8 24 (by omega) hlen, decodedEndpoint, ofReference,
            Sockaddr.toEndpoint]
          rw [Addr16_copyFrom_val _ (by rw [payloadSlice_length _ _ _ hlen])]
          simp [Nat.shiftLeft_eq]
        · have hc6 : ¬ (m.Header.Level = SOL_IPV6 ∧ m.Header.Type_ = IPV6_RECVORIGDSTADDR) :=
            fun hh => h6 ((isOrigDst6_iff m).2 hh)
          have hm : isOrigDst m = false := by simp [isOrigDst, h4, h6]
          have hf : (m :: rest).find? isOrigDst = rest.find? isOrigDst := by
            simp [List.find?, hm]
          have ih2 := ih (by intro r hr; exact h r (hf ▸ hr))
          simp only [recvTransparentUDP.loop, if_neg hc, if_neg hc6]
          rw [ih2]
          simp only [referenceDecode, hf]
  refine ⟨href, ?_⟩
  intro hnone
  have hr : referenceDecode msgs = .err errNoOrigDst := by
    simp only [referenceDecode, hnone]
  rw [hr] at href
  show recvTransparentUDP.loop data laddr msgs = .err errNoOrigDst
  cases hl : recvTransparentUDP.loop data laddr msgs with
  | ok v =>
    rw [hl] at href
    obtain ⟨d, l, r⟩ := v
    simp [decodedEndpoint, ofReference] at href
  | err e =>
    rw [hl] at href
    simp only [decodedEndpoint, ofReference, GoResult.err.injEq] at href
    rw [href]
  | panic k =>
    rw [hl] at href
    simp [decodedEndpoint, ofReference] at href

/-- Witness for C1: the IPv4 record with port bytes `01 BB` and address bytes
`93 184 216 34` decodes to 93.184.216.34:443. -/
theorem recvTransparentUDP_refines_reference_witness :
    payloadLongEnough [sampleRecord4] ∧
    decodedEndpoint (recvTransparentUDP (.ok ([], sampleClient4)) (.ok [sampleRecord4]))
      = .ok ([], sampleClient4, ⟨.inet4, [93, 184, 216, 34], 443⟩) :=
  ⟨by decide,
    (recvTransparentUDP_refines_reference [] sampleClient4 [sampleRecord4] (by decide)).1.trans
      (by decide)⟩

/-- C10, counterexample: on a parsed list whose original-destination record has an empty
payload the decode step faults with an index-out-of-range panic at `cmsg.Data[2]`. -/
theorem recvTransparentUDP_short_payload_panics :
    recvTransparentUDP (.ok ([], sampleClient4)) (.ok [emptyRecord4])
      = .panic .indexOutOfRange := by
  decide

/-- C10, amended. The decode step ends without a run-time panic (it returns an endpoint
or an error) exactly when the first original-destination record, if there is one, has a
payload of at least 4 bytes in a buffer that reaches 8 bytes (IPv4) or 24 bytes (IPv6). -/
theorem recvTransparentUDP_total_iff (data : List Byte) (laddr : Sockaddr)
    (msgs : List SocketControlMessage) :
    (recvTransparentUDP (.ok (data, laddr)) (.ok msgs)).isPanic = false ↔
      ∀ r, msgs.find? isOrigDst = some r → 4 ≤ r.Data.len ∧ requiredPayload r ≤ r.Data.cap := by
  show (recvTransparentUDP.loop data laddr msgs).isPanic = false ↔ _
  induction msgs with
  | nil => simp [recvTransparentUDP.loop, GoResult.isPanic]
  | cons m rest ih =>
    by_cases h4 : isOrigDst4 m = true
    · have hf : (m :: rest).find? isOrigDst = some m := by simp [List.find?, isOrigDst, h4]
      have hc := (isOrigDst4_iff m).1 h4
      simp only [hf, Option.some.injEq, forall_eq', requiredPayload, h4, if_true,
        recvTransparentUDP.loop, if_pos hc]
      by_cases hl2 : m.Data.len ≤ 2
      · simp only [bind, GoResult.bind, GoBytes.index_panic _ _ hl2, GoResult.isPanic]
        constructor
        · intro h; cases h
        · intro h; omega
      · by_cases hl3 : m.Data.len ≤ 3
        · simp only [bind, GoResult.bind, GoBytes.index_ok m.Data 2 (by omega),
            GoBytes.index_panic _ _ hl3, GoResult.isPanic]
          constructor
          · intro h; cases h
          · intro h; omega
        · simp only [bind, GoResult.bind, GoBytes.index_ok m.Data 2 (by omega),
            GoBytes.index_ok m.Data 3 (by omega), GoBytes.slice]
          by_cases hcap : 8 ≤ m.Data.cap
          · simp [hcap, GoResult.isPanic, pure]; omega
          · simp [hcap, GoResult.isPanic]
    · have hc : ¬ (m.Header.Level = SOL_IP ∧ m.Header.Type_ = IP_RECVORIGDSTADDR) :=
        fun hh => h4 ((isOrigDst4_iff m).2 hh)
      by_cases h6 : isOrigDst6 m = true
      · have hf : (m :: rest).find? isOrigDst = some m := by simp [List.find?, isOrigDst, h6]
        have hc6 := (isOrigDst6_iff m).1 h6
        simp only [hf, Option.some.injEq, forall_eq', requiredPayload, h4,
          recvTransparentUDP.loop, if_neg hc, if_pos hc6]
        by_cases hl2 : m.Data.len ≤ 2
        · simp only [bind, GoResult.bind, GoBytes.index_panic _ _ hl2, GoResult.isPanic]
          constructor
          · intro h; cases h
          · intro h; omega
        · by_cases hl3 : m.Data.len ≤ 3
          · simp only [bind, GoResult.bind, GoBytes.index_ok m.Data 2 (by omega),
              GoBytes.index_panic _ _ hl3, GoResult.isPanic]
            constructor
            · intro h; cases h
            · intro h; omega
          · simp only [bind, GoResult.bind, GoBytes.index_ok m.Data 2 (by omega),
              GoBytes.index_ok m.Data 3 (by omega), GoBytes.slice]
            by_cases hcap : 24 ≤ m.Data.cap
            · simp [hcap, GoResult.isPanic, pure]; omega
            · simp [hcap, GoResult.isPanic]
      · have hc6 : ¬ (m.Header.Level = SOL_IPV6 ∧ m.Header.Type_ = IPV6_RECVORIGDSTADDR) :=
          fun hh => h6 ((isOrigDst6_iff m).2 hh)
        have hm : isOrigDst m = false := by simp [isOrigDst, h4, h6]
        have hf : (m :: rest).find? isOrigDst = rest.find? isOrigDst := by
          simp [List.find?, hm]
        simp only [recvTransparentUDP.loop, if_neg hc, if_neg hc6, hf]
        exact ih

/-! ## Decimal and hexadecimal text -/


theorem digitVal_digitChar (d : Nat) (h : d < 10) : digitVal (Nat.digitChar d) = d := by
  interval_cases d <;> rfl

theorem foldl_dec (cs : List Char) (a : Nat) :
    cs.foldl (fun acc c => acc * 10 + digitVal c) a = a * 10 ^ cs.length + decValue cs := by
  induction cs generalizing a with
  | nil => simp [decValue]
  | cons c t ih =>
    simp only [List.foldl_cons, List.length_cons, decValue]
    rw [ih, ih (0 * 10 + digitVal c)]
    ring

theorem decValue_toDigitsCore (fuel n : Nat) (ds : List Char) (h : n < fuel) :
    decValue (Nat.toDigitsCore 10 fuel n ds) = n * 10 ^ ds.length + decValue ds := by
  induction fuel generalizing n ds with
  | zero => omega
  | succ f ih =>
    simp only [Nat.toDigitsCore]
    split
    · rename_i h0
      have hn : n < 10 := by omega
      simp only [decValue, List.foldl_cons]
      rw [foldl_dec, Nat.mod_eq_of_lt hn, digitVal_digitChar n hn]
      simp [decValue]
    · rename_i h0
      rw [ih (n / 10) _ (by omega)]
      simp only [decValue, List.foldl_cons, List.length_cons]
      rw [foldl_dec, digitVal_digitChar _ (Nat.mod_lt _ (by norm_num))]
      simp only [decValue]
      have h10 := Nat.div_add_mod n 10
      generalize List.foldl (fun acc c => acc * 10 + digitVal c) 0 ds = v
      rw [pow_succ]
      generalize 10 ^ ds.length = P
      have : n / 10 * (P * 10) + (0 * 10 + n % 10) * P = (10 * (n / 10) + n % 10) * P := by ring
      rw [h10] at this
      omega

theorem decValue_toDigits (n : Nat) : decValue (Nat.toDigits 10 n) = n := by
  unfold Nat.toDigits
  rw [decValue_toDigitsCore _ _ _ (by omega)]
  simp [decValue]

theorem toDigits_injective {m n : Nat} (h : Nat.toDigits 10 m = Nat.toDigits 10 n) : m = n := by
  have := congrArg decValue h
  rwa [decValue_toDigits, decValue_toDigits] at this

theorem isDigit_digitChar (d : Nat) (h : d < 10) : (Nat.digitChar d).isDigit = true := by
  interval_cases d <;> rfl

theorem toDigitsCore_isDigit (fuel n : Nat) (ds : List Char) :
    ∀ c ∈ Nat.toDigitsCore 10 fuel n ds, c ∈ ds ∨ c.isDigit = true := by
  induction fuel generalizing n ds with
  | zero => intro c hc; left; simpa [Nat.toDigitsCore] using hc
  | succ f ih =>
    intro c hc
    simp only [Nat.toDigitsCore] at hc
    split at hc
    · rcases List.mem_cons.1 hc with h | h
      · right; rw [h]; exact isDigit_digitChar _ (Nat.mod_lt _ (by norm_num))
      · left; exact h
    · rcases ih _ _ c hc with h | h
      · rcases List.mem_cons.1 h with h | h
        · right; rw [h]; exact isDigit_digitChar _ (Nat.mod_lt _ (by norm_num))
        · left; exact h
      · right; exact h

theorem toDigits_isDigit (n : Nat) : ∀ c ∈ Nat.toDigits 10 n, c.isDigit = true := by
  intro c hc
  rcases toDigitsCore_isDigit _ _ _ c hc with h | h
  · cases h
  · exact h

theorem toDigits_ne_nil (n : Nat) : Nat.toDigits 10 n ≠ [] := by
  unfold Nat.toDigits
  simp only [Nat.toDigitsCore]
  split
  · simp
  · intro h
    have := Nat.toDigitsCore_lens_eq 10 n (n/10) (Nat.digitChar (n % 10)) []
    rw [h] at this
    simp at this




theorem hexDigitVal_digitChar (d : Nat) (h : d < 16) : hexDigitVal (Nat.digitChar d) = d := by
  interval_cases d <;> rfl

theorem hexEmit_succ (i k : Nat) :
    hexEmit i (k + 1) =
      (if i / 16 ^ k > 0 then [Nat.digitChar (i / 16 ^ k % 16)] else []) ++ hexEmit i k := by
  have h1 : i >>> (k * 4) = i / 16 ^ k := by
    rw [Nat.shiftRight_eq_div_pow, Nat.mul_comm, pow_mul]; norm_num
  have h2 : ∀ v : Nat, v &&& 0xf = v % 16 := fun v => Nat.and_pow_two_sub_one_eq_mod v 4
  simp only [hexEmit, List.range_succ, List.reverse_append, List.reverse_cons, List.reverse_nil,
    List.nil_append, List.singleton_append, List.filterMap_cons, h1, h2]
  split_ifs <;> simp_all

theorem foldl_hexEmit (i k a : Nat) (ha : a = i / 16 ^ (k)) :
    (hexEmit i k).foldl (fun acc c => acc * 16 + hexDigitVal c) a = i := by
  induction k generalizing a with
  | zero => simp [hexEmit, ha]
  | succ k ih =>
    rw [hexEmit_succ, List.foldl_append]
    apply ih
    have hdiv : i / 16 ^ (k + 1) = i / 16 ^ k / 16 := by
      rw [pow_succ, Nat.div_div_eq_div_mul]
    split_ifs with hpos
    · simp only [List.foldl_cons, List.foldl_nil]
      rw [hexDigitVal_digitChar _ (Nat.mod_lt _ (by norm_num)), ha, hdiv]
      omega
    · simp only [List.foldl_nil]
      rw [ha, hdiv]
      omega

theorem appendHex_nil_eq (i : Nat) (h : i ≠ 0) : appendHex [] i = hexEmit i 8 := by
  simp only [appendHex, if_neg h, List.nil_append, hexEmit]
  rfl

theorem hexValue_appendHex (i : Nat) (h : i < 16 ^ 8) : hexValue (appendHex [] i) = i := by
  by_cases h0 : i = 0
  · subst h0; rfl
  · rw [appendHex_nil_eq i h0]
    exact foldl_hexEmit i 8 0 (by rw [Nat.div_eq_of_lt h])

theorem appendHex_injective {m n : Nat} (hm : m < 16 ^ 8) (hn : n < 16 ^ 8)
    (h : appendHex [] m = appendHex [] n) : m = n := by
  have := congrArg hexValue h
  rwa [hexValue_appendHex m hm, hexValue_appendHex n hn] at this

theorem mem_hexEmit (i k : Nat) : ∀ c ∈ hexEmit i k, ∃ v, v < 16 ∧ c = Nat.digitChar v := by
  induction k with
  | zero => intro c hc; simp [hexEmit] at hc
  | succ k ih =>
    intro c hc
    rw [hexEmit_succ, List.mem_append] at hc
    rcases hc with hc | hc
    · split_ifs at hc
      · simp only [List.mem_singleton] at hc
        exact ⟨_, Nat.mod_lt _ (by norm_num), hc⟩
      · cases hc
    · exact ih c hc

theorem mem_appendHex (i : Nat) : ∀ c ∈ appendHex [] i, ∃ v, v < 16 ∧ c = Nat.digitChar v := by
  by_cases h0 : i = 0
  · subst h0; intro c hc
    simp only [appendHex, if_true, List.nil_append, List.mem_singleton] at hc
    exact ⟨0, by norm_num, hc⟩
  · rw [appendHex_nil_eq i h0]; exact mem_hexEmit i 8

theorem hexEmit_ne_nil (i k : Nat) (hi : 0 < i) : hexEmit i (k + 1) ≠ [] := by
  induction k with
  | zero =>
    rw [hexEmit_succ]
    simp [hi]
  | succ k ih =>
    rw [hexEmit_succ]
    intro h
    exact ih (List.append_eq_nil.1 h).2

theorem appendHex_ne_nil (i : Nat) : appendHex [] i ≠ [] := by
  by_cases h0 : i = 0
  · subst h0; simp [appendHex]
  · rw [appendHex_nil_eq i h0]
    exact hexEmit_ne_nil i 7 (Nat.pos_of_ne_zero h0)


/-! ## The IPv6 text form -/


theorem leadingZeros_le (l : List Nat) : leadingZeros l ≤ l.length := by
  induction l with
  | nil => simp [leadingZeros]
  | cons a t ih =>
    cases a with
    | zero => simp only [leadingZeros, List.length_cons]; omega
    | succ n => simp [leadingZeros]

theorem leadingZeros_spec (l : List Nat) :
    l = List.replicate (leadingZeros l) 0 ++ l.drop (leadingZeros l) := by
  induction l with
  | nil => simp [leadingZeros]
  | cons a t ih =>
    cases a with
    | zero =>
      simp only [leadingZeros, List.replicate_succ, List.drop_succ_cons, List.cons_append]
      rw [← ih]
    | succ n => simp [leadingZeros]

theorem longestZeroRun_go_spec (l : List Nat) (i : Nat) (best : Nat × Nat) :
    longestZeroRun.go l i best = best ∨
      ∃ d, d < l.length ∧ longestZeroRun.go l i best = (i + d, leadingZeros (l.drop d)) := by
  induction l generalizing i best with
  | nil => left; rfl
  | cons g t ih =>
    simp only [longestZeroRun.go]
    rcases ih (i + 1) (if leadingZeros (g :: t) > best.2 then (i, leadingZeros (g :: t)) else best)
      with h | ⟨d, hd, h⟩
    · rw [h]
      split_ifs with hc
      · right; exact ⟨0, by simp, by simp⟩
      · left; rfl
    · right
      refine ⟨d + 1, by simp; omega, ?_⟩
      rw [h]
      simp only [List.drop_succ_cons]
      congr 1
      omega

theorem longestZeroRun_spec (g : List Nat) (e0 e1 : Nat) (h : longestZeroRun g = some (e0, e1)) :
    e0 + 2 ≤ e1 ∧ e1 ≤ g.length ∧
      g = g.take e0 ++ List.replicate (e1 - e0) 0 ++ g.drop e1 := by
  unfold longestZeroRun at h
  simp only at h
  split_ifs at h with hle
  rcases longestZeroRun_go_spec g 0 (0, 0) with hb | ⟨d, hd, hb⟩
  · rw [hb] at hle; simp at hle
  · rw [hb] at h hle
    simp only [Option.some.injEq, Prod.mk.injEq, Nat.zero_add] at h hle
    obtain ⟨rfl, rfl⟩ := h
    have hlz := leadingZeros_le (g.drop d)
    simp only [List.length_drop] at hlz
    refine ⟨by omega, by omega, ?_⟩
    have hs := leadingZeros_spec (g.drop d)
    rw [Nat.add_sub_cancel_left, List.append_assoc]
    rw [List.drop_drop] at hs
    rw [← hs, List.take_append_drop]

theorem intercalate_cons_of_ne_nil {α : Type} (sep x : List α) (ys : List (List α)) (h : ys ≠ []) :
    sep.intercalate (x :: ys) = x ++ sep ++ sep.intercalate ys := by
  cases ys with
  | nil => exact absurd rfl h
  | cons y t => simp [List.intercalate, List.intersperse]

theorem intercalate_append {α : Type} (sep : List α) (xs ys : List (List α))
    (hx : xs ≠ []) (hy : ys ≠ []) :
    sep.intercalate (xs ++ ys) = sep.intercalate xs ++ sep ++ sep.intercalate ys := by
  induction xs with
  | nil => exact absurd rfl hx
  | cons x t ih =>
    by_cases ht : t = []
    · subst ht
      rw [List.singleton_append, intercalate_cons_of_ne_nil _ _ _ hy]
      simp [List.intercalate]
    · rw [List.cons_append, intercalate_cons_of_ne_nil _ _ _ (by simp [ht]),
        intercalate_cons_of_ne_nil _ _ _ ht, ih ht]
      simp

theorem ip6Text_eq_tokens (p : List Byte) :
    ip6Text p = [':'].intercalate (ip6Tokens (groups p)) := by
  unfold ip6Text ip6Tokens joinColon
  generalize groups p = g
  cases h : longestZeroRun g with
  | none => rfl
  | some r =>
    obtain ⟨e0, e1⟩ := r
    simp only
    have hne : ∀ (l : List Nat), (if l = [] then [[]] else l.map (appendHex [])) ≠ [] := by
      intro l; split_ifs with hh
      · simp
      · simpa using hh
    rw [intercalate_append _ _ _ (by simp) (hne _),
      intercalate_append _ _ _ (hne _) (by simp)]
    have h1 : [':'].intercalate (if g.take e0 = [] then [[]] else (g.take e0).map (appendHex []))
        = [':'].intercalate ((g.take e0).map (appendHex [])) := by
      split_ifs with hh
      · rw [hh]; rfl
      · rfl
    have h2 : [':'].intercalate (if g.drop e1 = [] then [[]] else (g.drop e1).map (appendHex []))
        = [':'].intercalate ((g.drop e1).map (appendHex [])) := by
      split_ifs with hh
      · rw [hh]; rfl
      · rfl
    rw [h1, h2]
    simp [List.intercalate]



theorem takeWhile_hex_append (l : List Nat) (r : List (List Char)) :
    (l.map (appendHex []) ++ r).takeWhile (fun t => !t.isEmpty)
      = l.map (appendHex []) ++ r.takeWhile (fun t => !t.isEmpty) := by
  induction l with
  | nil => rfl
  | cons a t ih =>
    have : (appendHex [] a).isEmpty = false := by
      cases h : appendHex [] a with
      | nil => exact absurd h (appendHex_ne_nil a)
      | cons _ _ => rfl
    simp only [List.map_cons, List.cons_append, List.takeWhile_cons, this, Bool.not_false,
      if_true, ih]

theorem dropWhile_hex_append (l : List Nat) (r : List (List Char)) :
    (l.map (appendHex []) ++ r).dropWhile (fun t => !t.isEmpty)
      = r.dropWhile (fun t => !t.isEmpty) := by
  induction l with
  | nil => rfl
  | cons a t ih =>
    have : (appendHex [] a).isEmpty = false := by
      cases h : appendHex [] a with
      | nil => exact absurd h (appendHex_ne_nil a)
      | cons _ _ => rfl
    simp only [List.map_cons, List.cons_append, List.dropWhile_cons, this, Bool.not_false,
      if_true, ih]

theorem filter_hex (l : List Nat) :
    (l.map (appendHex [])).filter (fun t => !t.isEmpty) = l.map (appendHex []) := by
  induction l with
  | nil => rfl
  | cons a t ih =>
    have : (appendHex [] a).isEmpty = false := by
      cases h : appendHex [] a with
      | nil => exact absurd h (appendHex_ne_nil a)
      | cons _ _ => rfl
    simp only [List.map_cons, List.filter_cons, this, Bool.not_false, if_true, ih]

theorem map_hexValue_hex (l : List Nat) (h : ∀ x ∈ l, x < 16 ^ 8) :
    (l.map (appendHex [])).map hexValue = l := by
  induction l with
  | nil => rfl
  | cons a t ih =>
    simp only [List.map_cons]
    rw [hexValue_appendHex a (h a (by simp)), ih (fun x hx => h x (by simp [hx]))]

theorem untokens_ip6Tokens (g : List Nat) (hlen : g.length = 8) (hb : ∀ x ∈ g, x < 16 ^ 8) :
    untokens (ip6Tokens g) = g := by
  unfold ip6Tokens
  cases h : longestZeroRun g with
  | none =>
    simp only [untokens]
    have h1 := takeWhile_hex_append g []
    have h2 := dropWhile_hex_append g []
    simp only [List.append_nil, List.takeWhile_nil, List.dropWhile_nil] at h1 h2
    rw [h1, h2, map_hexValue_hex g hb]
    simp [hlen]
  | some r =>
    obtain ⟨e0, e1⟩ := r
    obtain ⟨h01, h1len, hg⟩ := longestZeroRun_spec g e0 e1 h
    have hpre : ((if g.take e0 = [] then [[]] else (g.take e0).map (appendHex [])) ++ [[]] ++
        (if g.drop e1 = [] then [[]] else (g.drop e1).map (appendHex []))).takeWhile
          (fun t => !t.isEmpty) = (g.take e0).map (appendHex []) := by
      split_ifs with ha hb2 hb2
      · rw [ha]; rfl
      · rw [ha]; rfl
      · rw [List.append_assoc, takeWhile_hex_append]; simp
      · rw [List.append_assoc, takeWhile_hex_append]; simp
    have hpost : (((if g.take e0 = [] then [[]] else (g.take e0).map (appendHex [])) ++ [[]] ++
        (if g.drop e1 = [] then [[]] else (g.drop e1).map (appendHex []))).dropWhile
          (fun t : List Char => !t.isEmpty)).filter (fun t : List Char => !t.isEmpty)
          = (g.drop e1).map (appendHex []) := by
      split_ifs with ha hb2 hb2
      · rw [hb2]; rfl
      · simp only [List.singleton_append, List.cons_append, List.nil_append,
          List.dropWhile_cons, List.isEmpty_nil, Bool.not_true,
          Bool.false_eq_true, if_false, List.filter_cons, filter_hex]
      · rw [List.append_assoc, dropWhile_hex_append, hb2]; rfl
      · rw [List.append_assoc, dropWhile_hex_append]
        simp only [List.singleton_append, List.dropWhile_cons, List.isEmpty_nil, Bool.not_true,
          Bool.false_eq_true, if_false, List.filter_cons, filter_hex]
    simp only [untokens]
    rw [hpre, hpost]
    rw [map_hexValue_hex _ (fun x hx => hb x (List.mem_of_mem_take hx)),
      map_hexValue_hex _ (fun x hx => hb x (List.mem_of_mem_drop hx))]
    simp only [List.length_map, List.length_take, List.length_drop, hlen]
    have : 8 - min e0 8 - (8 - e1) = e1 - e0 := by omega
    rw [this]
    exact hg.symm

theorem digitChar_ne_colon (v : Nat) (h : v < 16) : Nat.digitChar v ≠ ':' := by
  interval_cases v <;> decide

theorem colon_not_mem_appendHex (i : Nat) : ':' ∉ appendHex [] i := by
  intro h
  obtain ⟨v, hv, hc⟩ := mem_appendHex i _ h
  exact digitChar_ne_colon v hv hc.symm

theorem colon_not_mem_ip6Tokens (g : List Nat) : ∀ t ∈ ip6Tokens g, ':' ∉ t := by
  intro t ht
  have hmap : ∀ l : List Nat, ∀ t ∈ (if l = [] then [[]] else l.map (appendHex [])), ':' ∉ t := by
    intro l t ht
    split_ifs at ht
    · simp at ht; subst ht; simp
    · obtain ⟨x, _, rfl⟩ := List.mem_map.1 ht
      exact colon_not_mem_appendHex x
  unfold ip6Tokens at ht
  cases h : longestZeroRun g with
  | none =>
    rw [h] at ht
    obtain ⟨x, _, rfl⟩ := List.mem_map.1 ht
    exact colon_not_mem_appendHex x
  | some r =>
    obtain ⟨e0, e1⟩ := r
    rw [h] at ht
    simp only [List.mem_append, List.mem_singleton] at ht
    rcases ht with (ht | ht) | ht
    · exact hmap _ t ht
    · subst ht; simp
    · exact hmap _ t ht

theorem ip6Tokens_ne_nil (g : List Nat) (hg : g ≠ []) : ip6Tokens g ≠ [] := by
  unfold ip6Tokens
  cases h : longestZeroRun g with
  | none => simpa using hg
  | some r => simp

theorem groups_length (p : List Byte) (n : Nat) (h : p.length = 2 * n) :
    (groups p).length = n := by
  induction n generalizing p with
  | zero =>
    have : p = [] := List.length_eq_zero.1 (by omega)
    subst this; rfl
  | succ n ih =>
    match p, h with
    | a :: b :: rest, h =>
      simp only [groups, List.length_cons]
      rw [ih rest (by simp at h; omega)]

theorem group_eq (a b : Byte) : a.val <<< 8 ||| b.val = 2 ^ 8 * a.val + b.val := by
  rw [Nat.shiftLeft_eq, Nat.mul_comm]
  exact (Nat.mul_add_lt_is_or b.isLt a.val).symm

theorem groups_lt (p : List Byte) : ∀ x ∈ groups p, x < 16 ^ 8 := by
  induction p using groups.induct with
  | case1 a b rest ih =>
    intro x hx
    simp only [groups, List.mem_cons] at hx
    rcases hx with rfl | hx
    · rw [group_eq]
      have := a.isLt; have := b.isLt
      norm_num; omega
    · exact ih x hx
  | case2 p hp =>
    intro x hx
    rw [groups] at hx
    · cases hx
    · exact hp

theorem groups_injective (p q : List Byte) (n : Nat) (hp : p.length = 2 * n)
    (hq : q.length = 2 * n) (h : groups p = groups q) : p = q := by
  induction n generalizing p q with
  | zero =>
    have h1 : p = [] := List.length_eq_zero.1 (by omega)
    have h2 : q = [] := List.length_eq_zero.1 (by omega)
    rw [h1, h2]
  | succ n ih =>
    match p, hp, q, hq, h with
    | a :: b :: rest, hp, a2 :: b2 :: rest2, hq, h =>
      simp only [groups, List.cons.injEq] at h
      obtain ⟨h1, h2⟩ := h
      rw [group_eq, group_eq] at h1
      have ha := a.isLt; have hb := b.isLt; have ha2 := a2.isLt; have hb2 := b2.isLt
      have e1 : a = a2 := Fin.ext (by omega)
      have e2 : b = b2 := Fin.ext (by omega)
      rw [e1, e2, ih rest rest2 (by simp at hp; omega) (by simp at hq; omega) h2]

theorem ip6Text_injective (p q : List Byte) (hp : p.length = 16) (hq : q.length = 16)
    (h : ip6Text p = ip6Text q) : p = q := by
  have lp := groups_length p 8 hp
  have lq := groups_length q 8 hq
  rw [ip6Text_eq_tokens, ip6Text_eq_tokens] at h
  have h2 := congrArg (fun s => s.splitOn ':') h
  simp only at h2
  rw [List.splitOn_intercalate _ ':' (colon_not_mem_ip6Tokens _)
      (ip6Tokens_ne_nil _ (by intro h0; rw [h0] at lp; cases lp)),
    List.splitOn_intercalate _ ':' (colon_not_mem_ip6Tokens _)
      (ip6Tokens_ne_nil _ (by intro h0; rw [h0] at lq; cases lq))] at h2
  have h3 := congrArg untokens h2
  rw [untokens_ip6Tokens _ lp (groups_lt p), untokens_ip6Tokens _ lq (groups_lt q)] at h3
  exact groups_injective p q 8 hp hq h3


/-! ## Session keys -/


theorem split_first {α : Type} (c : α) (x x2 y y2 : List α) (hx : c ∉ x) (hx2 : c ∉ x2)
    (h : x ++ c :: y = x2 ++ c :: y2) : x = x2 ∧ y = y2 := by
  induction x generalizing x2 with
  | nil =>
    cases x2 with
    | nil => simpa using h
    | cons b t =>
      simp only [List.nil_append, List.cons_append, List.cons.injEq] at h
      exact absurd (h.1 ▸ List.mem_cons_self _ _) hx2
  | cons a t ih =>
    cases x2 with
    | nil =>
      simp only [List.nil_append, List.cons_append, List.cons.injEq] at h
      exact absurd (h.1 ▸ List.mem_cons_self _ _) hx
    | cons b t2 =>
      simp only [List.cons_append, List.cons.injEq] at h
      obtain ⟨hab, ht⟩ := h
      have := ih t2 (fun hc => hx (List.mem_cons_of_mem _ hc))
        (fun hc => hx2 (List.mem_cons_of_mem _ hc)) ht
      exact ⟨by rw [hab, this.1], this.2⟩

theorem split_last {α : Type} (c : α) (x x2 y y2 : List α) (hy : c ∉ y) (hy2 : c ∉ y2)
    (h : x ++ c :: y = x2 ++ c :: y2) : x = x2 ∧ y = y2 := by
  have h2 := congrArg List.reverse h
  simp only [List.reverse_append, List.reverse_cons, List.append_assoc, List.singleton_append]
    at h2
  have := split_first c y.reverse y2.reverse x.reverse x2.reverse (by simpa using hy)
    (by simpa using hy2) h2
  exact ⟨List.reverse_injective this.2, List.reverse_injective this.1⟩

theorem isDigit_ne (c d : Char) (hc : c.isDigit = true) (hd : d.isDigit = false) : c ≠ d := by
  intro h; rw [h, hd] at hc; cases hc

theorem colon_not_mem_toDigits (n : Nat) : ':' ∉ Nat.toDigits 10 n := by
  intro h; exact isDigit_ne _ ':' (toDigits_isDigit n _ h) (by decide) rfl

theorem dot_not_mem_toDigits (n : Nat) : '.' ∉ Nat.toDigits 10 n := by
  intro h; exact isDigit_ne _ '.' (toDigits_isDigit n _ h) (by decide) rfl

theorem dash_not_mem_toDigits (n : Nat) : '-' ∉ Nat.toDigits 10 n := by
  intro h; exact isDigit_ne _ '-' (toDigits_isDigit n _ h) (by decide) rfl

theorem colon_not_mem_fmtInt (i : Int) : ':' ∉ fmtInt i := by
  cases i with
  | ofNat n => exact colon_not_mem_toDigits n
  | negSucc n =>
    simp only [fmtInt, List.mem_cons, not_or]
    exact ⟨by decide, colon_not_mem_toDigits _⟩

theorem fmtInt_injective {i j : Int} (h : fmtInt i = fmtInt j) : i = j := by
  cases i with
  | ofNat m =>
    cases j with
    | ofNat n => simp only [fmtInt] at h; rw [toDigits_injective h]
    | negSucc n =>
      simp only [fmtInt] at h
      exact absurd (h ▸ List.mem_cons_self _ _ : '-' ∈ Nat.toDigits 10 m) (dash_not_mem_toDigits m)
  | negSucc m =>
    cases j with
    | ofNat n =>
      simp only [fmtInt] at h
      exact absurd (h ▸ List.mem_cons_self _ _ : '-' ∈ Nat.toDigits 10 n) (dash_not_mem_toDigits n)
    | negSucc n =>
      simp only [fmtInt, List.cons.injEq, true_and] at h
      have := toDigits_injective h
      have : m = n := by omega
      rw [this]

theorem dottedQuad_injective {a b c d a2 b2 c2 d2 : Byte}
    (h : dottedQuad a b c d = dottedQuad a2 b2 c2 d2) : a = a2 ∧ b = b2 ∧ c = c2 ∧ d = d2 := by
  simp only [dottedQuad, uitoa, List.append_assoc, List.singleton_append] at h
  obtain ⟨h1, h⟩ := split_first '.' _ _ _ _ (dot_not_mem_toDigits _) (dot_not_mem_toDigits _) h
  obtain ⟨h2, h⟩ := split_first '.' _ _ _ _ (dot_not_mem_toDigits _) (dot_not_mem_toDigits _) h
  obtain ⟨h3, h4⟩ := split_first '.' _ _ _ _ (dot_not_mem_toDigits _) (dot_not_mem_toDigits _) h
  exact ⟨Fin.ext (toDigits_injective h1), Fin.ext (toDigits_injective h2),
    Fin.ext (toDigits_injective h3), Fin.ext (toDigits_injective h4)⟩

theorem mem_dottedQuad {a b c d : Byte} (x : Char) (hx : x ∈ dottedQuad a b c d) :
    x = '.' ∨ x.isDigit = true := by
  simp only [dottedQuad, uitoa, List.mem_append, List.mem_singleton] at hx
  rcases hx with (((((h | h) | h) | h) | h) | h) | h
  all_goals first | exact Or.inl h | exact Or.inr (toDigits_isDigit _ _ h)

theorem colon_not_mem_dottedQuad (a b c d : Byte) : ':' ∉ dottedQuad a b c d := by
  intro h
  rcases mem_dottedQuad _ h with h | h
  · exact absurd h (by decide)
  · exact absurd h (by decide)

theorem dash_not_mem_dottedQuad (a b c d : Byte) : '-' ∉ dottedQuad a b c d := by
  intro h
  rcases mem_dottedQuad _ h with h | h
  · exact absurd h (by decide)
  · exact absurd h (by decide)

theorem mem_intercalate {α : Type} (sep : List α) (ts : List (List α)) (x : α)
    (h : x ∈ sep.intercalate ts) : x ∈ sep ∨ ∃ t ∈ ts, x ∈ t := by
  induction ts with
  | nil => simp [List.intercalate] at h
  | cons t rest ih =>
    by_cases hr : rest = []
    · subst hr
      simp [List.intercalate] at h
      right; exact ⟨t, by simp, h⟩
    · rw [intercalate_cons_of_ne_nil _ _ _ hr] at h
      simp only [List.mem_append] at h
      rcases h with (h | h) | h
      · right; exact ⟨t, by simp, h⟩
      · left; exact h
      · rcases ih h with h | ⟨t2, ht2, h⟩
        · left; exact h
        · right; exact ⟨t2, by simp [ht2], h⟩

theorem digitChar_ne_dash (v : Nat) (h : v < 16) : Nat.digitChar v ≠ '-' := by
  interval_cases v <;> decide

theorem dash_not_mem_ip6Text (p : List Byte) : '-' ∉ ip6Text p := by
  intro h
  rw [ip6Text_eq_tokens] at h
  rcases mem_intercalate _ _ _ h with h | ⟨t, ht, h⟩
  · simp at h
  · unfold ip6Tokens at ht
    have hmap : ∀ l : List Nat, ∀ t ∈ l.map (appendHex []), '-' ∉ t := by
      intro l t ht hc
      obtain ⟨x, _, rfl⟩ := List.mem_map.1 ht
      obtain ⟨v, hv, hc⟩ := mem_appendHex x _ hc
      exact digitChar_ne_dash v hv hc.symm
    cases hr : longestZeroRun (groups p) with
    | none => rw [hr] at ht; exact hmap _ t ht h
    | some r =>
      obtain ⟨e0, e1⟩ := r
      rw [hr] at ht
      simp only [List.mem_append, List.mem_singleton] at ht
      rcases ht with (ht | ht) | ht
      · split_ifs at ht
        · simp at ht; subst ht; simp at h
        · exact hmap _ t ht h
      · subst ht; simp at h
      · split_ifs at ht
        · simp at ht; subst ht; simp at h
        · exact hmap _ t ht h

theorem colon_mem_intercalate (ts : List (List Char)) (h : 2 ≤ ts.length) :
    ':' ∈ [':'].intercalate ts := by
  match ts, h with
  | a :: b :: rest, _ =>
    rw [intercalate_cons_of_ne_nil _ _ _ (by simp)]
    simp

theorem ip6Tokens_length (g : List Nat) (hg : g.length = 8) : 2 ≤ (ip6Tokens g).length := by
  unfold ip6Tokens
  cases h : longestZeroRun g with
  | none => simp [hg]
  | some r =>
    simp only [List.length_append, List.length_singleton]
    have hne : ∀ (l : List Nat), 1 ≤ (if l = [] then [[]] else l.map (appendHex [])).length := by
      intro l; split_ifs with hh
      · simp
      · simp only [List.length_map]; exact List.length_pos.2 hh
    have := hne (g.take r.1)
    omega

theorem colon_mem_ip6Text (p : List Byte) (hp : p.length = 16) : ':' ∈ ip6Text p := by
  rw [ip6Text_eq_tokens]
  exact colon_mem_intercalate _ (ip6Tokens_length _ (groups_length p 8 hp))



theorem goCopy_eq (dst src : List Byte) (h : src.length = dst.length) : goCopy dst src = src := by
  simp [goCopy, h]

theorem IP_String_addr4 (a : Addr4) :
    ∃ x y z w, a.val = [x, y, z, w] ∧ IP.String a.val = ⟨dottedQuad x y z w⟩ := by
  obtain ⟨l, hl⟩ := a
  match l, hl with
  | [x, y, z, w], _ =>
    exact ⟨x, y, z, w, rfl, by simp [IP.String, IP.To4]⟩

theorem To4_addr4 (a : Addr4) : IP.To4 a.val = some a.val := by
  simp [IP.To4, a.property]

theorem IP_String_addr16 (a : Addr16) :
    (∃ x y z w, IP.To4 a.val = some [x, y, z, w] ∧
        a.val = List.replicate 10 0 ++ [0xff, 0xff, x, y, z, w] ∧
        IP.String a.val = ⟨dottedQuad x y z w⟩) ∨
      (IP.To4 a.val = none ∧ IP.String a.val = ⟨ip6Text a.val⟩) := by
  obtain ⟨l, hl⟩ := a
  by_cases hm : l.take 10 = List.replicate 10 0 ∧ l.getD 10 0 = 0xff ∧ l.getD 11 0 = 0xff
  · left
    match l, hl, hm with
    | [b0, b1, b2, b3, b4, b5, b6, b7, b8, b9, b10, b11, x, y, z, w], _, hm =>
      simp only [List.take, List.replicate, List.cons.injEq, and_true,
        List.getD_cons_succ, List.getD_cons_zero] at hm
      obtain ⟨⟨h0, h1, h2, h3, h4, h5, h6, h7, h8, h9⟩, h10, h11⟩ := hm
      subst h0 h1 h2 h3 h4 h5 h6 h7 h8 h9 h10 h11
      refine ⟨x, y, z, w, ?_, rfl, ?_⟩
      · simp [IP.To4]
      · simp [IP.String, IP.To4]
  · right
    have h4 : ¬ l.length = 4 := by omega
    have h0 : ¬ l.length = 0 := by omega
    have hm2 : ¬ (l.length = 16 ∧ l.take 10 = List.replicate 10 0 ∧
        l.getD 10 0 = 0xff ∧ l.getD 11 0 = 0xff) := fun hh => hm hh.2
    have hto : IP.To4 l = none := by
      unfold IP.To4; rw [if_neg h4, if_neg hm2]
    refine ⟨hto, ?_⟩
    unfold IP.String
    rw [if_neg h0, hto]
    simp only [ne_eq, hl, not_true_eq_false, if_false]

theorem host_shape (s : Sockaddr) :
    (∃ x y z w, (IP.To4 s.addr).getD s.addr = [x, y, z, w] ∧
        IP.String s.addr = ⟨dottedQuad x y z w⟩) ∨
      ((IP.To4 s.addr).getD s.addr = s.addr ∧ s.addr.length = 16 ∧
        IP.String s.addr = ⟨ip6Text s.addr⟩) := by
  cases s with
  | SockaddrInet4 p a =>
    left
    obtain ⟨x, y, z, w, h1, h2⟩ := IP_String_addr4 a
    refine ⟨x, y, z, w, ?_, h2⟩
    rw [show (Sockaddr.SockaddrInet4 p a).addr = a.val from rfl, To4_addr4]
    exact h1
  | SockaddrInet6 p zone a =>
    rcases IP_String_addr16 a with ⟨x, y, z, w, h1, _, h3⟩ | ⟨h1, h2⟩
    · left
      exact ⟨x, y, z, w, by simp only [Sockaddr.addr, h1, Option.getD_some], h3⟩
    · right
      exact ⟨by simp only [Sockaddr.addr, h1, Option.getD_none], a.property, h2⟩

theorem host_eq_iff (s1 s2 : Sockaddr) :
    IP.String s1.addr = IP.String s2.addr ↔
      (IP.To4 s1.addr).getD s1.addr = (IP.To4 s2.addr).getD s2.addr := by
  rcases host_shape s1 with ⟨x, y, z, w, hc1, ht1⟩ | ⟨hc1, hl1, ht1⟩ <;>
  rcases host_shape s2 with ⟨x2, y2, z2, w2, hc2, ht2⟩ | ⟨hc2, hl2, ht2⟩
  · rw [ht1, ht2, hc1, hc2]
    constructor
    · intro h
      obtain ⟨rfl, rfl, rfl, rfl⟩ := dottedQuad_injective (congrArg String.data h)
      rfl
    · intro h
      simp only [List.cons.injEq, and_true] at h
      obtain ⟨rfl, rfl, rfl, rfl⟩ := h
      rfl
  · rw [ht1, ht2, hc1, hc2]
    constructor
    · intro h
      have hd : dottedQuad x y z w = ip6Text s2.addr := congrArg String.data h
      have := colon_mem_ip6Text _ hl2
      rw [← hd] at this
      exact absurd this (colon_not_mem_dottedQuad _ _ _ _)
    · intro h
      rw [← h] at hl2
      simp at hl2
  · rw [ht1, ht2, hc1, hc2]
    constructor
    · intro h
      have hd : ip6Text s1.addr = dottedQuad x2 y2 z2 w2 := congrArg String.data h
      have := colon_mem_ip6Text _ hl1
      rw [hd] at this
      exact absurd this (colon_not_mem_dottedQuad _ _ _ _)
    · intro h
      rw [h] at hl1
      simp at hl1
  · rw [ht1, ht2, hc1, hc2]
    constructor
    · intro h
      exact ip6Text_injective _ _ hl1 hl2 (congrArg String.data h)
    · intro h
      rw [h]

theorem dash_not_mem_host (s : Sockaddr) : '-' ∉ (IP.String s.addr).data := by
  rcases host_shape s with ⟨x, y, z, w, _, ht⟩ | ⟨_, _, ht⟩
  · rw [ht]; exact dash_not_mem_dottedQuad _ _ _ _
  · rw [ht]; exact dash_not_mem_ip6Text _

theorem sessionKey_data (l r : Sockaddr) :
    (sessionKey l r).data =
      ((IP.String l.addr).data ++ ':' :: fmtInt l.port) ++
        '-' :: ((IP.String r.addr).data ++ ':' :: fmtInt r.port) := by
  simp [sessionKey, String.data_append]

theorem sessionKey_eq_iff (l1 r1 l2 r2 : Sockaddr) :
    sessionKey l1 r1 = sessionKey l2 r2 ↔
      l1.shown = l2.shown ∧ r1.shown = r2.shown := by
  constructor
  · intro h
    have hd := congrArg String.data h
    rw [sessionKey_data, sessionKey_data] at hd
    have key_form : ∀ (A P B Q : List Char), (A ++ ':' :: P) ++ '-' :: (B ++ ':' :: Q)
        = ((A ++ ':' :: P) ++ '-' :: B) ++ ':' :: Q := by intros; simp
    rw [key_form, key_form] at hd
    obtain ⟨hd, hrp⟩ := split_last ':' _ _ _ _ (colon_not_mem_fmtInt _)
      (colon_not_mem_fmtInt _) hd
    obtain ⟨hd, hrh⟩ := split_last '-' _ _ _ _ (dash_not_mem_host _) (dash_not_mem_host _) hd
    obtain ⟨hlh, hlp⟩ := split_last ':' _ _ _ _ (colon_not_mem_fmtInt _)
      (colon_not_mem_fmtInt _) hd
    have e1 := (host_eq_iff l1 l2).1 (String.ext hlh)
    have e2 := (host_eq_iff r1 r2).1 (String.ext hrh)
    simp only [Sockaddr.shown, Prod.mk.injEq]
    exact ⟨⟨e1, fmtInt_injective hlp⟩, ⟨e2, fmtInt_injective hrp⟩⟩
  · intro ⟨h1, h2⟩
    simp only [Sockaddr.shown, Prod.mk.injEq] at h1 h2
    have e1 := (host_eq_iff l1 l2).2 h1.1
    have e2 := (host_eq_iff r1 r2).2 h2.1
    simp only [sessionKey, e1, e2, h1.2, h2.2]

theorem newSession_ok_iff (proxy : ProxyConfig) (l r : Sockaddr) :
    (∃ t, newSession proxy l r = .ok t) ↔ l.family = r.family := by
  cases l <;> cases r <;> simp [newSession, Sockaddr.family]

theorem newSession_key (proxy : ProxyConfig) (l r : Sockaddr) (t : tudpSession)
    (h : newSession proxy l r = .ok t) :
    t.key = sessionKey l r ∧ t.local_ = l ∧ t.remote = r ∧ t.conf = proxy ∧ t.stream = none ∧
      t.remotePort = ⟨fmtInt r.port⟩ ∧ t.remoteHost = IP.String r.addr := by
  cases l with
  | SockaddrInet4 lp la =>
    cases r with
    | SockaddrInet4 rp ra =>
      simp only [newSession, GoResult.ok.injEq] at h
      subst h
      simp only [sessionKey, Sockaddr.addr, Sockaddr.port,
        goCopy_eq (List.replicate 4 0) ra.val (by simp [ra.property]),
        goCopy_eq ra.val la.val (by simp [ra.property, la.property])]
      simp
    | SockaddrInet6 rp rz ra => simp [newSession] at h
  | SockaddrInet6 lp lz la =>
    cases r with
    | SockaddrInet4 rp ra => simp [newSession] at h
    | SockaddrInet6 rp rz ra =>
      simp only [newSession, GoResult.ok.injEq] at h
      subst h
      simp only [sessionKey, Sockaddr.addr, Sockaddr.port,
        goCopy_eq (List.replicate 16 0) ra.val (by simp [ra.property]),
        goCopy_eq ra.val la.val (by simp [ra.property, la.property])]
      simp

theorem shown_injective_same_family (a b : Sockaddr) (hf : a.family = b.family)
    (h : a.shown = b.shown) : a.toEndpoint = b.toEndpoint := by
  simp only [Sockaddr.shown, Prod.mk.injEq] at h
  obtain ⟨ha, hp⟩ := h
  cases a with
  | SockaddrInet4 p1 a1 =>
    cases b with
    | SockaddrInet4 p2 a2 =>
      simp only [Sockaddr.addr, To4_addr4, Option.getD_some, Sockaddr.port] at ha hp
      simp only [Sockaddr.toEndpoint, ha, hp]
    | SockaddrInet6 p2 z2 a2 => simp [Sockaddr.family] at hf
  | SockaddrInet6 p1 z1 a1 =>
    cases b with
    | SockaddrInet4 p2 a2 => simp [Sockaddr.family] at hf
    | SockaddrInet6 p2 z2 a2 =>
      simp only [Sockaddr.addr, Sockaddr.port] at ha hp
      have : a1.val = a2.val := by
        rcases IP_String_addr16 a1 with ⟨x, y, z, w, h1, h2, _⟩ | ⟨h1, _⟩ <;>
        rcases IP_String_addr16 a2 with ⟨x2, y2, z2, w2, h3, h4, _⟩ | ⟨h3, _⟩
        · rw [h1, h3] at ha
          simp only [Option.getD_some, List.cons.injEq, and_true] at ha
          obtain ⟨rfl, rfl, rfl, rfl⟩ := ha
          rw [h2, h4]
        · rw [h1, h3] at ha
          simp only [Option.getD_some, Option.getD_none] at ha
          have := a2.property
          rw [← ha] at this
          simp at this
        · rw [h1, h3] at ha
          simp only [Option.getD_some, Option.getD_none] at ha
          have := a1.property
          rw [ha] at this
          simp at this
        · rw [h1, h3] at ha
          simpa using ha
      simp only [Sockaddr.toEndpoint, this, hp]


/-! ## The session table -/


theorem Load_cons (m : SessionTable) (k k2 : String) (v : Nat) :
    SessionTable.Load ((k, v) :: m) k2 = if k = k2 then some v else m.Load k2 := by
  unfold SessionTable.Load
  by_cases h : k = k2
  · simp [List.find?, h]
  · simp [List.find?, h]

theorem Load_none_not_mem (m : SessionTable) (k : String) (h : m.Load k = none) :
    k ∉ m.map Prod.fst := by
  induction m with
  | nil => simp
  | cons e t ih =>
    obtain ⟨k1, v1⟩ := e
    rw [Load_cons] at h
    split_ifs at h with hk
    simp only [List.map_cons, List.mem_cons, not_or]
    exact ⟨fun hh => hk hh.symm, ih h⟩

theorem newSession_key_proxy (p1 p2 : ProxyConfig) (l r : Sockaddr) (t1 t2 : tudpSession)
    (h1 : newSession p1 l r = .ok t1) (h2 : newSession p2 l r = .ok t2) : t1.key = t2.key := by
  rw [(newSession_key p1 l r t1 h1).1, (newSession_key p2 l r t2 h2).1]

theorem getTUDPSession_eq (st : ProxyState) (proxy : ProxyConfig) (l r : Sockaddr)
    (t : tudpSession) (h : newSession proxy l r = .ok t) :
    getTUDPSession st proxy l r =
      .ok ((st.tudpSessions.LoadOrStore t.key st.heap.length).1,
        ⟨st.heap ++ [t], (st.tudpSessions.LoadOrStore t.key st.heap.length).2.2⟩) := by
  simp only [getTUDPSession, h, bind, GoResult.bind, pure]

theorem Load_some_mem (m : SessionTable) (k : String) (v : Nat) (h : m.Load k = some v) :
    (k, v) ∈ m := by
  induction m with
  | nil => simp [SessionTable.Load] at h
  | cons e t ih =>
    obtain ⟨k1, v1⟩ := e
    rw [Load_cons] at h
    split_ifs at h with hk
    · simp only [Option.some.injEq] at h
      subst hk h
      exact List.mem_cons_self _ _
    · exact List.mem_cons_of_mem _ (ih h)

theorem wf_empty : ProxyState.empty.wf := by
  simp [ProxyState.wf, ProxyState.empty]

theorem routeTwo_distinct (st : ProxyState) (hwf : st.wf) (p1 p2 : ProxyConfig)
    (l1 r1 l2 r2 : Sockaddr) (t1 t2 : tudpSession)
    (h1 : newSession p1 l1 r1 = .ok t1) (h2 : newSession p2 l2 r2 = .ok t2)
    (hkey : t1.key ≠ t2.key) :
    ∃ a b, routeTwo st p1 p2 l1 r1 l2 r2 = .ok (a, b) ∧ a ≠ b := by
  obtain ⟨_, hv, hlt⟩ := hwf
  unfold routeTwo
  rw [getTUDPSession_eq _ p1 l1 r1 t1 h1]
  simp only [bind, GoResult.bind]
  rw [getTUDPSession_eq _ p2 l2 r2 t2 h2]
  simp only [pure, SessionTable.LoadOrStore, List.length_append, List.length_singleton]
  cases ha : st.tudpSessions.Load t1.key with
  | none =>
    simp only [Load_cons, if_neg hkey]
    cases hb : st.tudpSessions.Load t2.key with
    | none => exact ⟨_, _, rfl, by simp⟩
    | some b =>
      refine ⟨_, _, rfl, ?_⟩
      have := hlt _ (Load_some_mem _ _ _ hb)
      simp only at this ⊢
      omega
  | some a =>
    simp only
    have hma := Load_some_mem _ _ _ ha
    cases hb : st.tudpSessions.Load t2.key with
    | none =>
      refine ⟨_, _, rfl, ?_⟩
      have := hlt _ hma
      simp only at this ⊢
      omega
    | some b =>
      refine ⟨_, _, rfl, ?_⟩
      have hmb := Load_some_mem _ _ _ hb
      intro hab
      simp only at hab
      have := List.inj_on_of_nodup_map hv hma hmb hab
      simp only [Prod.mk.injEq] at this
      exact hkey this.1

theorem getTUDPSession_wf (st : ProxyState) (hwf : st.wf) (proxy : ProxyConfig)
    (l r : Sockaddr) (a : Nat) (st2 : ProxyState)
    (h : getTUDPSession st proxy l r = .ok (a, st2)) : st2.wf := by
  obtain ⟨hk, hv, hlt⟩ := hwf
  cases hn : newSession proxy l r with
  | ok t =>
    rw [getTUDPSession_eq st proxy l r t hn] at h
    simp only [GoResult.ok.injEq, Prod.mk.injEq] at h
    obtain ⟨_, rfl⟩ := h
    cases hq : st.tudpSessions.Load t.key with
    | none =>
      simp only [SessionTable.LoadOrStore, hq]
      refine ⟨?_, ?_, ?_⟩
      · simp only [List.map_cons, List.nodup_cons]
        exact ⟨Load_none_not_mem _ _ hq, hk⟩
      · simp only [List.map_cons, List.nodup_cons]
        refine ⟨?_, hv⟩
        intro hm
        obtain ⟨e, he, heq⟩ := List.mem_map.1 hm
        have := hlt e he
        omega
      · intro e he
        simp only [List.length_append, List.length_singleton]
        rcases List.mem_cons.1 he with rfl | he
        · simp
        · have := hlt e he; omega
    | some q =>
      simp only [SessionTable.LoadOrStore, hq]
      refine ⟨hk, hv, ?_⟩
      intro e he
      simp only [List.length_append, List.length_singleton]
      have := hlt e he; omega
  | err e => simp [getTUDPSession, hn, bind, GoResult.bind] at h
  | panic k => simp [getTUDPSession, hn, bind, GoResult.bind] at h

/-- C3, amended.  `getTUDPSession` is a get-or-create on the session table for every
table state and every endpoint pair of one address family: if the table holds a session
under the pair's key, that session's address is returned and the table is unchanged;
otherwise a new session carrying these endpoints is allocated and returned, and the
table maps the key to it with every other key unchanged.  Sessions allocated earlier are
not modified, keys stay unique in the table (and the state stays well formed), and a
second call with the same pair returns the same session and leaves the table as it is. -/
theorem getTUDPSession_get_or_create (st : ProxyState) (proxy : ProxyConfig) (l r : Sockaddr)
    (hf : l.family = r.family) :
    ∃ t, newSession proxy l r = .ok t ∧ t.local_ = l ∧ t.remote = r ∧
      t.key = sessionKey l r ∧
      (∀ q, st.tudpSessions.Load t.key = some q →
        getTUDPSession st proxy l r =
          .ok (q, ⟨st.heap ++ [t], st.tudpSessions⟩)) ∧
      (st.tudpSessions.Load t.key = none →
        getTUDPSession st proxy l r =
          .ok (st.heap.length, ⟨st.heap ++ [t], (t.key, st.heap.length) :: st.tudpSessions⟩)) ∧
      ∀ a st2, getTUDPSession st proxy l r = .ok (a, st2) →
        st2.tudpSessions.Load t.key = some a ∧
        (∀ k, k ≠ t.key → st2.tudpSessions.Load k = st.tudpSessions.Load k) ∧
        (∀ i, i < st.heap.length → st2.heap[i]? = st.heap[i]?) ∧
        (st.tudpSessions.Load t.key = none → st2.heap[a]? = some t) ∧
        ((st.tudpSessions.map Prod.fst).Nodup → (st2.tudpSessions.map Prod.fst).Nodup) ∧
        (st.wf → st2.wf) ∧
        (∀ proxy2, ∃ st3, getTUDPSession st2 proxy2 l r = .ok (a, st3) ∧
          st3.tudpSessions = st2.tudpSessions) := by
  obtain ⟨t, ht⟩ := (newSession_ok_iff proxy l r).2 hf
  obtain ⟨hkey, hl, hr, _⟩ := newSession_key proxy l r t ht
  refine ⟨t, ht, hl, hr, hkey, ?_, ?_, ?_⟩
  · intro q hq
    rw [getTUDPSession_eq st proxy l r t ht]
    simp only [SessionTable.LoadOrStore, hq]
  · intro hq
    rw [getTUDPSession_eq st proxy l r t ht]
    simp only [SessionTable.LoadOrStore, hq]
  · intro a st2 hres
    have hwf2 : st.wf → st2.wf := fun hwf => getTUDPSession_wf st hwf proxy l r a st2 hres
    rw [getTUDPSession_eq st proxy l r t ht] at hres
    simp only [GoResult.ok.injEq, Prod.mk.injEq] at hres
    obtain ⟨ha, hst⟩ := hres
    have hsecond : st2.tudpSessions.Load t.key = some a →
        ∀ proxy2, ∃ st3, getTUDPSession st2 proxy2 l r = .ok (a, st3) ∧
          st3.tudpSessions = st2.tudpSessions := by
      intro hload proxy2
      obtain ⟨t2, ht2⟩ := (newSession_ok_iff proxy2 l r).2 hf
      have hk : t2.key = t.key := newSession_key_proxy proxy2 proxy l r t2 t ht2 ht
      rw [getTUDPSession_eq st2 proxy2 l r t2 ht2]
      simp only [SessionTable.LoadOrStore, hk, hload]
      exact ⟨_, rfl, rfl⟩
    cases hq : st.tudpSessions.Load t.key with
    | none =>
      simp only [SessionTable.LoadOrStore, hq] at ha hst
      subst ha hst
      have hload : SessionTable.Load ((t.key, st.heap.length) :: st.tudpSessions) t.key
          = some st.heap.length := by rw [Load_cons, if_pos rfl]
      refine ⟨hload, ?_, ?_, ?_, ?_, hwf2, hsecond hload⟩
      · intro k hk
        show SessionTable.Load ((t.key, st.heap.length) :: st.tudpSessions) k = _
        rw [Load_cons, if_neg (fun h => hk h.symm)]
      · intro i hi
        show (st.heap ++ [t])[i]? = _
        rw [List.getElem?_append_left hi]
      · intro _
        show (st.heap ++ [t])[st.heap.length]? = some t
        simp
      · intro hnd
        show (List.map Prod.fst ((t.key, st.heap.length) :: st.tudpSessions)).Nodup
        simp only [List.map_cons, List.nodup_cons]
        exact ⟨Load_none_not_mem _ _ hq, hnd⟩
    | some q =>
      simp only [SessionTable.LoadOrStore, hq] at ha hst
      subst ha hst
      refine ⟨hq, ?_, ?_, ?_, ?_, hwf2, hsecond hq⟩
      · intro k _; rfl
      · intro i hi
        show (st.heap ++ [t])[i]? = _
        rw [List.getElem?_append_left hi]
      · intro h; cases h
      · intro hnd; exact hnd


/-- Witness for C3: on the empty table the pair 10.0.0.7:40000 / 203.0.113.5:53 gets a new
session at address 0, stored under its key. -/
theorem getTUDPSession_get_or_create_witness :
    sampleClient4.family = sampleDns4.family ∧
    getTUDPSession .empty sampleConf sampleClient4 sampleDns4 =
      .ok (0, ⟨[sampleSessionDns], [("10.0.0.7:40000-203.0.113.5:53", 0)]⟩) := by
  refine ⟨by decide, ?_⟩
  obtain ⟨t, ht, _, _, _, _, hcreate, _⟩ :=
    getTUDPSession_get_or_create .empty sampleConf sampleClient4 sampleDns4 (by decide)
  have h0 : newSession sampleConf sampleClient4 sampleDns4 = .ok sampleSessionDns := by decide
  rw [h0] at ht
  cases ht
  exact (hcreate (by decide)).trans (by decide)

/-! ## Session state machine -/

theorem port_text_53 (port : Int) : ((⟨fmtInt port⟩ : String) = "53") ↔ port = 53 := by
  constructor
  · intro h
    have h2 : fmtInt port = fmtInt 53 := congrArg String.data h
    exact fmtInt_injective h2
  · intro h; subst h; rfl

theorem Load_Delete_self (m : SessionTable) (k : String) : (m.Delete k).Load k = none := by
  unfold SessionTable.Load SessionTable.Delete
  rw [Option.map_eq_none', List.find?_eq_none]
  intro e he
  have := (List.mem_filter.1 he).2
  simpa using this

theorem Load_Delete_other (m : SessionTable) (k k2 : String) (h : k2 ≠ k) :
    (m.Delete k).Load k2 = m.Load k2 := by
  induction m with
  | nil => rfl
  | cons e t ih =>
    obtain ⟨k1, v⟩ := e
    by_cases he : k1 = k
    · have hd : SessionTable.Delete ((k1, v) :: t) k = SessionTable.Delete t k := by
        simp [SessionTable.Delete, List.filter, he]
      rw [hd, ih, Load_cons, if_neg (fun hh : k1 = k2 => h (hh.symm.trans he))]
    · have hd : SessionTable.Delete ((k1, v) :: t) k = (k1, v) :: SessionTable.Delete t k := by
        simp [SessionTable.Delete, List.filter, he]
      rw [hd, Load_cons, Load_cons, ih]

theorem handle_forwarding (up : Upstream) (t : tudpSession) (p : List Byte)
    (table : SessionTable) (s : MuxStream) (h : t.stream = some s) :
    t.handle up p table = (t, table, [.streamWrite s p]) := by
  unfold tudpSession.handle
  rw [h]
  simp only [tudpSession.handle.forward, h]

theorem writeBackUDPData_cases (sys : ReplySyscalls) (data : List Byte) (l r : Sockaddr) :
    (∀ e, sys.socket = .error e →
      writeBackUDPData sys data l r = (some e, [.socket (replyFamily l) SOCK_DGRAM 0])) ∧
    (∀ fd e, sys.socket = .ok fd → sys.setTransparent = some e →
      writeBackUDPData sys data l r =
        (some e, [.socket (replyFamily l) SOCK_DGRAM 0,
          .setsockoptInt fd SOL_IP IP_TRANSPARENT 1, .closeFd fd])) ∧
    (∀ fd e, sys.socket = .ok fd → sys.setTransparent = none → sys.bind = some e →
      writeBackUDPData sys data l r =
        (some e, [.socket (replyFamily l) SOCK_DGRAM 0,
          .setsockoptInt fd SOL_IP IP_TRANSPARENT 1, .setsockoptInt fd SOL_IP SO_REUSEADDR 1,
          .bind fd r, .closeFd fd])) ∧
    (∀ fd, sys.socket = .ok fd → sys.setTransparent = none → sys.bind = none →
      writeBackUDPData sys data l r =
        (sys.sendto, [.socket (replyFamily l) SOCK_DGRAM 0,
          .setsockoptInt fd SOL_IP IP_TRANSPARENT 1, .setsockoptInt fd SOL_IP SO_REUSEADDR 1,
          .bind fd r, .sendto fd data 0 l, .closeFd fd])) := by
  refine ⟨?_, ?_, ?_, ?_⟩
  · intro e h1
    simp only [writeBackUDPData, h1]
  · intro fd e h1 h2
    simp only [writeBackUDPData, h1, h2, List.cons_append, List.nil_append]
  · intro fd e h1 h2 h3
    simp only [writeBackUDPData, h1, h2, h3, List.cons_append, List.nil_append]
  · intro fd h1 h2 h3
    simp only [writeBackUDPData, h1, h2, h3, List.cons_append, List.nil_append]

theorem writeBackUDPData_counts (sys : ReplySyscalls) (data : List Byte) (l r : Sockaddr) :
    (writeBackUDPData sys data l r).2.countP Event.isStreamRead = 0 ∧
      (writeBackUDPData sys data l r).2.countP Event.isSendto ≤ 1 := by
  obtain ⟨c1, c2, c3, c4⟩ := writeBackUDPData_cases sys data l r
  cases h1 : sys.socket with
  | error e => rw [c1 e h1]; simp [List.countP_cons, Event.isStreamRead, Event.isSendto]
  | ok fd =>
    cases h2 : sys.setTransparent with
    | some e => rw [c2 fd e h1 h2]; simp [List.countP_cons, Event.isStreamRead, Event.isSendto]
    | none =>
      cases h3 : sys.bind with
      | some e =>
        rw [c3 fd e h1 h2 h3]; simp [List.countP_cons, Event.isStreamRead, Event.isSendto]
      | none =>
        rw [c4 fd h1 h2 h3]; simp [List.countP_cons, Event.isStreamRead, Event.isSendto]

theorem reader_dns (t : tudpSession) (stream : MuxStream) (readTimeout : Int)
    (o : ReadOutcome) (rest : List ReadOutcome) (table : SessionTable)
    (hport : t.remotePort = "53") (hs : t.stream = some stream) :
    t.reader stream readTimeout (o :: rest) table =
      (true, table.Delete t.key,
        [.setReadDeadline stream readTimeout, .streamRead stream] ++
        (if o.data.length > 0 then (writeBackUDPData o.reply o.data t.local_ t.remote).2
          else []) ++
        [.streamClose stream, .tableDelete t.key]) := by
  unfold tudpSession.reader tudpSession.reader.loop
  by_cases hn : o.data.length > 0
  · simp only [hn, if_true, hport]
    cases (writeBackUDPData o.reply o.data t.local_ t.remote).1 <;>
      simp [tudpSession.close, hs]
  · simp only [hn, if_false, hport]
    cases o.err <;> simp [tudpSession.close, hs]


/-! ## The original-destination resolver -/

theorem getOrinalTCPRemoteAddr_ipv6_branch (order : ByteOrder) (sys : ResolverCalls)
    (fd conn : Nat) (v : IPv6MTUInfo)
    (hfile : sys.file = .ok fd) (h6 : sys.origDst6 = .ok v) (hconn : sys.fileConn = .ok conn) :
    getOrinalTCPRemoteAddr order .tcpConn sys =
      (.ok (conn, (v.val.drop 8).take 16, loadUint16 order v.val 2),
        [.tcpFile, .tcpClose, .getsockopt fd IPPROTO_IPV6 IP6T_SO_ORIGINAL_DST,
         .fileConn fd]) := by
  have hlen : ((v.val.drop 8).take 16).length = 16 := by
    simp [v.property]
  simp only [getOrinalTCPRemoteAddr, hfile, h6, hconn, IPv6MTUInfo.Port, IPv6MTUInfo.Addr,
    goCopy_eq (List.replicate 16 0) _ (by rw [hlen]; simp), List.cons_append, List.nil_append]

theorem loadUint16_bigEndian (mem : List Byte) (off : Nat) :
    loadUint16 .bigEndian mem off = (mem.getD off 0).val * 256 + (mem.getD (off + 1) 0).val := by
  simp only [loadUint16]; omega

theorem loadUint16_littleEndian (mem : List Byte) (off : Nat) :
    loadUint16 .littleEndian mem off
      = (mem.getD off 0).val + (mem.getD (off + 1) 0).val * 256 := by
  simp only [loadUint16]; omega

theorem getOrinalTCPRemoteAddr_ipv4_branch (order : ByteOrder) (sys : ResolverCalls)
    (fd conn : Nat) (e : GoError) (v : IPv6Mreq)
    (hfile : sys.file = .ok fd) (h6 : sys.origDst6 = .error e) (h4 : sys.origDst4 = .ok v)
    (hconn : sys.fileConn = .ok conn) :
    getOrinalTCPRemoteAddr order .tcpConn sys =
      (.ok (conn, IPv4 (v.val.getD 4 0) (v.val.getD 5 0) (v.val.getD 6 0) (v.val.getD 7 0),
          (v.val.getD 2 0).val * 256 + (v.val.getD 3 0).val),
        [.tcpFile, .tcpClose, .getsockopt fd IPPROTO_IPV6 IP6T_SO_ORIGINAL_DST,
         .getsockopt fd IPPROTO_IP SO_ORIGINAL_DST, .fileConn fd]) := by
  have hb2 := (v.val.getD 2 0).isLt
  have hb3 := (v.val.getD 3 0).isLt
  have hport : (((v.val.getD 2 0).val <<< 8) % 2 ^ 16 + (v.val.getD 3 0).val) % 2 ^ 16
      = (v.val.getD 2 0).val * 256 + (v.val.getD 3 0).val := by
    rw [Nat.shiftLeft_eq]
    omega
  simp only [getOrinalTCPRemoteAddr, hfile, h6, h4, hconn, IPv6Mreq.Multiaddr, hport,
    List.cons_append, List.nil_append]

theorem IPv4_To4 (a b c d : Byte) : IP.To4 (IPv4 a b c d) = some [a, b, c, d] := by
  simp [IP.To4, IPv4]

/-! ## Claims: session keys -/


theorem routeTwo_empty (p1 p2 : ProxyConfig) (l1 r1 l2 r2 : Sockaddr) (t1 t2 : tudpSession)
    (h1 : newSession p1 l1 r1 = .ok t1) (h2 : newSession p2 l2 r2 = .ok t2) :
    routeTwo .empty p1 p2 l1 r1 l2 r2 = .ok (0, if t1.key = t2.key then 0 else 1) := by
  unfold routeTwo
  rw [getTUDPSession_eq _ p1 l1 r1 t1 h1]
  simp only [bind, GoResult.bind, ProxyState.empty, SessionTable.LoadOrStore,
    SessionTable.Load, List.find?_nil, Option.map_none', List.length_nil, List.nil_append]
  rw [getTUDPSession_eq _ p2 l2 r2 t2 h2]
  simp only [SessionTable.LoadOrStore, Load_cons]
  split_ifs <;> rfl

/-- C2, counterexample.  The IPv4 pair 10.0.0.7:40000 / 203.0.113.5:53 and the IPv6 pair of
the IPv4-mapped addresses `::ffff:10.0.0.7` and `::ffff:203.0.113.5` with the same ports
differ in family and address, yet their sessions get the same key
`10.0.0.7:40000-203.0.113.5:53`, and from the empty table both are routed to the session
at address 0. -/
theorem sessionKey_collision_across_families :
    newSession sampleConf sampleClient4 sampleDns4 = .ok sampleSessionDns ∧
    newSession sampleConf sampleClientMapped sampleDnsMapped = .ok sampleSessionMapped ∧
    sampleClient4.toEndpoint ≠ sampleClientMapped.toEndpoint ∧
    sampleDns4.toEndpoint ≠ sampleDnsMapped.toEndpoint ∧
    sampleSessionDns.key = sampleSessionMapped.key ∧
    routeTwo .empty sampleConf sampleConf sampleClient4 sampleDns4
      sampleClientMapped sampleDnsMapped = .ok (0, 0) := by
  decide

/-- C2, amended.  For two endpoint pairs, each of one address family, the keys derived by
`getTUDPSession` are equal exactly when the local endpoints and the remote endpoints
agree in port and in address, an IPv4-mapped IPv6 address counting as its IPv4 address.
Hence two pairs of the same family that differ in the address or port of an endpoint
have different keys, and in every well-formed state two consecutive calls route them to
distinct sessions. -/
theorem sessionKey_injective_up_to_mapped (p1 p2 : ProxyConfig) (l1 r1 l2 r2 : Sockaddr)
    (t1 t2 : tudpSession)
    (h1 : newSession p1 l1 r1 = .ok t1) (h2 : newSession p2 l2 r2 = .ok t2) :
    (t1.key = t2.key ↔ l1.shown = l2.shown ∧ r1.shown = r2.shown) ∧
    (l1.family = l2.family →
      (l1.toEndpoint ≠ l2.toEndpoint ∨ r1.toEndpoint ≠ r2.toEndpoint) →
      t1.key ≠ t2.key ∧
        ∀ st : ProxyState, st.wf →
          ∃ a b, routeTwo st p1 p2 l1 r1 l2 r2 = .ok (a, b) ∧ a ≠ b) := by
  have k1 := (newSession_key p1 l1 r1 t1 h1).1
  have k2 := (newSession_key p2 l2 r2 t2 h2).1
  have hiff : t1.key = t2.key ↔ l1.shown = l2.shown ∧ r1.shown = r2.shown := by
    rw [k1, k2]; exact sessionKey_eq_iff l1 r1 l2 r2
  refine ⟨hiff, ?_⟩
  intro hf hne
  have f1 := (newSession_ok_iff p1 l1 r1).1 ⟨t1, h1⟩
  have f2 := (newSession_ok_iff p2 l2 r2).1 ⟨t2, h2⟩
  have hkey : t1.key ≠ t2.key := by
    intro hk
    obtain ⟨hl, hr⟩ := hiff.1 hk
    rcases hne with hne | hne
    · exact hne (shown_injective_same_family l1 l2 hf hl)
    · exact hne (shown_injective_same_family r1 r2 (by rw [← f1, ← f2, hf]) hr)
  exact ⟨hkey, fun st hwf => routeTwo_distinct st hwf p1 p2 l1 r1 l2 r2 t1 t2 h1 h2 hkey⟩

/-- Witness for C2: the pairs 10.0.0.7:40000 / 203.0.113.5:53 and
10.0.0.7:40000 / 93.184.216.34:443 get different keys and distinct sessions. -/
theorem sessionKey_injective_up_to_mapped_witness :
    sampleSessionDns.key ≠ sampleSessionWeb.key ∧
      ∃ a b, routeTwo .empty sampleConf sampleConf sampleClient4 sampleDns4 sampleClient4
        sampleWeb4 = .ok (a, b) ∧ a ≠ b :=
  match sessionKey_injective_up_to_mapped sampleConf sampleConf sampleClient4 sampleDns4
    sampleClient4 sampleWeb4 sampleSessionDns { sampleSessionWeb with stream := none }
    (by decide) (by decide) with
  | ⟨_, h⟩ =>
    match h (by decide) (Or.inr (by decide)) with
    | ⟨hk, hroute⟩ => ⟨hk, hroute .empty wf_empty⟩

/-- C3, counterexample.  For an IPv6 local endpoint and an IPv4 remote endpoint
`getTUDPSession` neither returns a session nor touches the table: the type assertion
`laddr.(*syscall.SockaddrInet4)` panics. -/
theorem getTUDPSession_mixed_families_panics :
    getTUDPSession .empty sampleConf sampleClient6 sampleDns4 = .panic .typeAssertion := by
  decide


/-! ## Claims: session state machine, reply writer and resolver -/


/-- C4.  DNS sessions are single-shot.  For a session built for a remote port 53 whose
upstream stream has been set, and for every outcome of the first upstream read (and
whatever the stream would deliver later), the reader sets the deadline and reads once,
calls `writeBackUDPData` only when that read delivered bytes, then closes the stream and
deletes the session key; so it issues exactly one read and at most one `Sendto`, and
afterwards the table holds no session under the key. -/
theorem reader_dns_single_shot (proxy : ProxyConfig) (l r : Sockaddr) (t0 : tudpSession)
    (stream : MuxStream) (readTimeout : Int) (o : ReadOutcome) (rest : List ReadOutcome)
    (table : SessionTable)
    (hnew : newSession proxy l r = .ok t0) (hport : r.port = 53) :
    (t0.setStream stream).reader stream readTimeout (o :: rest) table =
        (true, table.Delete t0.key,
          [.setReadDeadline stream readTimeout, .streamRead stream] ++
          (if o.data.length > 0 then (writeBackUDPData o.reply o.data l r).2 else []) ++
          [.streamClose stream, .tableDelete t0.key]) ∧
      ((t0.setStream stream).reader stream readTimeout (o :: rest) table).2.2.countP
          Event.isStreamRead = 1 ∧
      ((t0.setStream stream).reader stream readTimeout (o :: rest) table).2.2.countP
          Event.isSendto ≤ 1 ∧
      ((t0.setStream stream).reader stream readTimeout (o :: rest) table).2.1.Load t0.key
          = none := by
  obtain ⟨_, hl, hr, _, _, hp, _⟩ := newSession_key proxy l r t0 hnew
  have h53 : (t0.setStream stream).remotePort = "53" := by
    show t0.remotePort = "53"
    rw [hp]; exact (port_text_53 r.port).2 hport
  have hrun := reader_dns (t0.setStream stream) stream readTimeout o rest table h53 rfl
  have hkey : (t0.setStream stream).key = t0.key := rfl
  have hloc : (t0.setStream stream).local_ = l := hl
  have hrem : (t0.setStream stream).remote = r := hr
  rw [hkey, hloc, hrem] at hrun
  rw [hrun]
  refine ⟨rfl, ?_, ?_, Load_Delete_self _ _⟩
  · have hc := (writeBackUDPData_counts o.reply o.data l r).1
    by_cases hn : o.data.length > 0
    · rw [if_pos hn]
      simp [List.countP_append, List.countP_cons, Event.isStreamRead, hc]
    · rw [if_neg hn]
      simp [List.countP_cons, Event.isStreamRead]
  · have hc := (writeBackUDPData_counts o.reply o.data l r).2
    by_cases hn : o.data.length > 0
    · rw [if_pos hn]
      simpa [List.countP_append, List.countP_cons, Event.isSendto] using hc
    · rw [if_neg hn]
      simp [List.countP_cons, Event.isSendto]

/-- Witness for C4: the DNS session of 10.0.0.7:40000 / 203.0.113.5:53 relays the first
reply and closes, although a second reply is available upstream. -/
theorem reader_dns_single_shot_witness :
    (sampleSessionDns.setStream ⟨1⟩).reader ⟨1⟩ 2000000000 [sampleReadOk, sampleReadOk]
        [("10.0.0.7:40000-203.0.113.5:53", 0)] =
      (true, [],
        [.setReadDeadline ⟨1⟩ 2000000000, .streamRead ⟨1⟩,
         .socket AF_INET SOCK_DGRAM 0, .setsockoptInt 7 SOL_IP IP_TRANSPARENT 1,
         .setsockoptInt 7 SOL_IP SO_REUSEADDR 1, .bind 7 sampleDns4,
         .sendto 7 [7, 9] 0 sampleClient4, .closeFd 7,
         .streamClose ⟨1⟩, .tableDelete "10.0.0.7:40000-203.0.113.5:53"]) :=
  (reader_dns_single_shot sampleConf sampleClient4 sampleDns4 sampleSessionDns ⟨1⟩ 2000000000
    sampleReadOk [sampleReadOk] [("10.0.0.7:40000-203.0.113.5:53", 0)]
    (by decide) (by decide)).1.trans (by decide)

/-- C5, counterexample.  When the second socket-option call (`SO_REUSEADDR`) fails and the
other calls succeed, `writeBackUDPData` returns no error and still binds and sends. -/
theorem writeBackUDPData_reuse_failure_ignored :
    replyReuseFails.setReuseAddr = some (.errno 92) ∧
    writeBackUDPData replyReuseFails [7, 9] sampleClient4 sampleDns4 =
      (none,
        [.socket AF_INET SOCK_DGRAM 0, .setsockoptInt 7 SOL_IP IP_TRANSPARENT 1,
         .setsockoptInt 7 SOL_IP SO_REUSEADDR 1, .bind 7 sampleDns4,
         .sendto 7 [7, 9] 0 sampleClient4, .closeFd 7]) := by
  decide

/-- C5, amended.  `writeBackUDPData` creates a socket of the family of `local`; when the
`IP_TRANSPARENT` option call, `Bind` or `Sendto` fails that error is returned and no
later call is made; otherwise it binds the socket to the original remote endpoint and
sends exactly the payload, once, to the original local endpoint.  The outcome of the
`SO_REUSEADDR` option call is ignored, and every return after the socket was created is
preceded by closing it. -/
theorem writeBackUDPData_forges_reply (sys : ReplySyscalls) (data : List Byte)
    (l r : Sockaddr) :
    (∀ e, sys.socket = .error e →
      writeBackUDPData sys data l r = (some e, [.socket (replyFamily l) SOCK_DGRAM 0])) ∧
    (∀ fd e, sys.socket = .ok fd → sys.setTransparent = some e →
      writeBackUDPData sys data l r =
        (some e, [.socket (replyFamily l) SOCK_DGRAM 0,
          .setsockoptInt fd SOL_IP IP_TRANSPARENT 1, .closeFd fd])) ∧
    (∀ fd e, sys.socket = .ok fd → sys.setTransparent = none → sys.bind = some e →
      writeBackUDPData sys data l r =
        (some e, [.socket (replyFamily l) SOCK_DGRAM 0,
          .setsockoptInt fd SOL_IP IP_TRANSPARENT 1, .setsockoptInt fd SOL_IP SO_REUSEADDR 1,
          .bind fd r, .closeFd fd])) ∧
    (∀ fd, sys.socket = .ok fd → sys.setTransparent = none → sys.bind = none →
      writeBackUDPData sys data l r =
        (sys.sendto, [.socket (replyFamily l) SOCK_DGRAM 0,
          .setsockoptInt fd SOL_IP IP_TRANSPARENT 1, .setsockoptInt fd SOL_IP SO_REUSEADDR 1,
          .bind fd r, .sendto fd data 0 l, .closeFd fd])) := by
  refine ⟨?_, ?_, ?_, ?_⟩
  · intro e h1
    simp only [writeBackUDPData, h1]
  · intro fd e h1 h2
    simp only [writeBackUDPData, h1, h2, List.cons_append, List.nil_append]
  · intro fd e h1 h2 h3
    simp only [writeBackUDPData, h1, h2, h3, List.cons_append, List.nil_append]
  · intro fd h1 h2 h3
    simp only [writeBackUDPData, h1, h2, h3, List.cons_append, List.nil_append]

/-- Witness for C5: a failing `Bind` is returned, nothing is sent, the socket is closed. -/
theorem writeBackUDPData_forges_reply_witness :
    writeBackUDPData replyBindFails [7, 9] sampleClient4 sampleDns4 =
      (some (.errno 99),
        [.socket AF_INET SOCK_DGRAM 0, .setsockoptInt 7 SOL_IP IP_TRANSPARENT 1,
         .setsockoptInt 7 SOL_IP SO_REUSEADDR 1, .bind 7 sampleDns4, .closeFd 7]) :=
  (writeBackUDPData_forges_reply replyBindFails [7, 9] sampleClient4 sampleDns4).2.2.1
    7 (.errno 99) rfl rfl rfl

/-- C6, the code at the failing input.  A session in Forwarding whose upstream `Write`
fails with `EPIPE`: `handle` issues the write and returns with the stream not closed and
the session still in the table. -/
theorem handle_ignores_write_error :
    sampleSessionWeb.stream = some ⟨1⟩ ∧
    sampleTable.Load sampleSessionWeb.key = some 0 ∧
    sampleUpstreamFailing.Write ⟨1⟩ [7, 9] = (0, some (.errno 32)) ∧
    sampleSessionWeb.handle sampleUpstreamFailing [7, 9] sampleTable =
      (sampleSessionWeb, sampleTable, [.streamWrite ⟨1⟩ [7, 9]]) := by
  decide

/-- C8, the code at the failing input.  A generic session whose first upstream read
returns two bytes together with `ECONNRESET`, the reply being written back without
error: the reader does not end and does not close the session, it sets the deadline
again and issues a second read. -/
theorem reader_continues_after_read_error :
    sampleSessionWeb.remotePort ≠ "53" ∧
    sampleReadBytesAndError.err = some (.errno 104) ∧
    sampleSessionWeb.reader ⟨1⟩ 15000000000 [sampleReadBytesAndError] sampleTable =
      (false, sampleTable,
        [.setReadDeadline ⟨1⟩ 15000000000, .streamRead ⟨1⟩,
         .socket AF_INET SOCK_DGRAM 0, .setsockoptInt 7 SOL_IP IP_TRANSPARENT 1,
         .setsockoptInt 7 SOL_IP SO_REUSEADDR 1, .bind 7 sampleWeb4,
         .sendto 7 [7, 9] 0 sampleClient4, .closeFd 7,
         .setReadDeadline ⟨1⟩ 15000000000, .streamRead ⟨1⟩]) := by
  decide

/-- C7, the code at the failing input.  On a little-endian host, for a kernel
`sockaddr_in6` with port bytes `01 BB` (port 443), the IPv6 branch returns port
`0xBB01` = 47873: `ipv6Addr.Addr.Port` is read in host byte order. -/
theorem getOrinalTCPRemoteAddr_ipv6_port_swapped :
    sampleOrigDst6.val.getD 2 0 = 0x01 ∧ sampleOrigDst6.val.getD 3 0 = 0xBB ∧
    getOrinalTCPRemoteAddr .littleEndian .tcpConn sampleResolver6 =
      (.ok (9, [0x20, 0x01, 0x0d, 0xb8, 0, 0, 0, 0, 0, 0, 0, 0, 0, 0, 0, 1], 0xBB01),
        [.tcpFile, .tcpClose, .getsockopt 5 IPPROTO_IPV6 IP6T_SO_ORIGINAL_DST, .fileConn 5]) := by
  decide

/-- C9.  Route-not-found closes the session without a tunnel.  For a new session (built
by `getTUDPSession` for `l`, `r`, no stream yet) and any first datagram, if channel
selection, queried with class `dns` when the remote port is 53 and `udp` otherwise and
with the remote host, returns the empty name, then `handle` issues only that query and
the deletion of the session key: no stream is opened, no `Connect`, no `Write`, no
reader is started, the stream stays unset, and the key is no longer in the table. -/
theorem handle_route_not_found (up : Upstream) (proxy : ProxyConfig) (l r : Sockaddr)
    (t : tudpSession) (p : List Byte) (table : SessionTable)
    (hnew : newSession proxy l r = .ok t)
    (hroute : up.getProxyChannelByHost proxy (if r.port = 53 then "dns" else "udp")
      (IP.String r.addr) = "") :
    t.handle up p table =
        (t, table.Delete t.key,
          [.selectChannel (if r.port = 53 then "dns" else "udp") (IP.String r.addr),
           .tableDelete t.key]) ∧
      t.stream = none ∧ (table.Delete t.key).Load t.key = none := by
  obtain ⟨_, _, _, hconf, hstream, hport, hhost⟩ := newSession_key proxy l r t hnew
  refine ⟨?_, hstream, Load_Delete_self _ _⟩
  unfold tudpSession.handle
  rw [hstream]
  simp only [hport, hhost, hconf, port_text_53, hroute, tudpSession.close, hstream]
  simp

/-- Witness for C9: the DNS session of 10.0.0.7:40000 / 203.0.113.5:53 with no route. -/
theorem handle_route_not_found_witness :
    sampleSessionDns.handle sampleUpstreamNoRoute [7, 9]
        [("10.0.0.7:40000-203.0.113.5:53", 0)] =
      (sampleSessionDns, [],
        [.selectChannel "dns" "203.0.113.5", .tableDelete "10.0.0.7:40000-203.0.113.5:53"]) :=
  (handle_route_not_found sampleUpstreamNoRoute sampleConf sampleClient4 sampleDns4
    sampleSessionDns [7, 9] [("10.0.0.7:40000-203.0.113.5:53", 0)] (by decide) rfl).1.trans
    (by decide)


end Gsnova
